import Mathlib

/-!
# gorge: event engine (`engine/app.go`) and dependency container (`di/container.go`)

A shallow embedding of the two packages.  State that Go keeps behind pointers
(`*GameManager`, `*Container`) is passed explicitly; every call returns the state
it leaves behind together with the list of observable actions it performed.
Go function values (event handlers, components) are identified by a number and
their behaviour, panics included, is supplied by a `Callbacks` record.
-/

namespace sync

/-- Go `sync.Map` restricted to string keys: an association list.  `Store` keeps at
most one entry per key, so every map built from `Map.empty` has distinct keys. -/
structure Map (α : Type) where
  entries : List (String × α)
deriving DecidableEq, Repr

namespace Map

variable {α : Type}

/-- The map `new(sync.Map)`. -/
def empty : Map α := ⟨[]⟩

/-- Go `Load(k)`: the stored value, or `none` where Go returns `(nil, false)`. -/
def Load (m : Map α) (k : String) : Option α :=
  m.entries.lookup k

/-- Go `Store(k, v)`: replaces whatever was stored under `k`. -/
def Store (m : Map α) (k : String) (v : α) : Map α :=
  ⟨(k, v) :: m.entries.filter (fun p => p.1 != k)⟩

/-- Go `Range(f)` calls `f` on one key after the other.  Go fixes neither the order
nor whether a key stored while `Range` runs is visited, and the value passed to `f` is
the one stored when the key is reached.  `RangeOrder m order` says that `order` is a
sequence of keys `Range` may go through on a map that holds `m` when the call starts:
no key twice, and every key stored in `m` among them. -/
def RangeOrder (m : Map α) (order : List String) : Prop :=
  order.Nodup ∧ ∀ p ∈ m.entries, p.1 ∈ order

instance (m : Map α) (order : List String) : Decidable (m.RangeOrder order) := by
  unfold RangeOrder
  infer_instance

end Map

end sync

namespace engine

/-- Modelled from the spec: the `Event` type, whose declaration is not among the
sources: `{Name string, ClientId string (optional), Payload any}`.  The payload is
kept as a string. -/
structure Event where
  Name : String
  ClientId : String
  Payload : String
deriving DecidableEq, Repr

/-- Modelled from the spec: the `EventDefinition` type, whose declaration is not among
the sources: `{Name string, Internal bool, Websocket bool, Broadcast bool}`. -/
structure EventDefinition where
  Name : String
  Internal : Bool
  Websocket : Bool
  Broadcast : Bool
deriving DecidableEq, Repr

/-- An `EventHandler` function value `func(Event)`, identified by a number. -/
abbrev EventHandler := Nat

/-- A value implementing `ComponentInterface` (`SetGM`, `Register`), identified by a
number. -/
abbrev ComponentInterface := Nat

/-- Modelled from the spec: the `Client` type, whose declaration is not among the
sources: `{Id string, connection handle, outbound send channel}`.  The channel `Send`
is identified by a number; the connection handle plays no role in `app.go`. -/
structure Client where
  Id : String
  Send : Nat
deriving DecidableEq, Repr

/-- The three registries of `GameManager`.  The `Server` and `Log` fields are not
state of this model: the server is a parameter of the functions that use it and what
is logged is recorded in the trace. -/
structure GameManager where
  Components : sync.Map ComponentInterface
  Subscribers : sync.Map (List EventHandler)
  Events : sync.Map EventDefinition
deriving DecidableEq, Repr

/-- Modelled from the spec: the Connection Directory (`Server`), whose code is not
among the sources.  Only `Find(id)` is given a result: `some c` where Go returns
`(c, nil)` and `none` where it returns a non-nil error.  `Broadcast` is recorded as
a call and its effect is left to the server. -/
structure Server where
  Find : String → Option Client

/-- Log levels used by `app.go`. -/
inductive Level where
  | debug
  | warning
  | error
deriving DecidableEq, Repr

/-- The argument of a formatted log call. -/
inductive Arg where
  | str (s : String)
  | event (e : Event)
deriving DecidableEq, Repr

/-- A goroutine started by a `go` statement of `FireEvent`. -/
inductive Task where
  | sendInternalEvent (e : Event)
  | sendWebsocketEvent (e : Event) (b : Bool)
deriving DecidableEq, Repr

/-- Observable actions of the manager, in the order the code performs them. -/
inductive Effect where
  /-- A call `GM.Log.Debugf/Warningf/Errorf(format, arg)`. -/
  | log (level : Level) (format : String) (arg : Arg)
  /-- A `go` statement. -/
  | go (t : Task)
  /-- A call `sub(e)` of a subscribed handler. -/
  | invoke (sub : EventHandler) (e : Event)
  /-- A call `GM.Server.Broadcast(e)`. -/
  | broadcast (e : Event)
  /-- A call `GM.Server.Find(id)`. -/
  | find (id : String)
  /-- A channel send `client.Send <- e`, on the channel `ch`. -/
  | send (ch : Nat) (e : Event)
  /-- A call `value.SetGM(GM)`. -/
  | setGM (value : ComponentInterface)
  /-- A call `component.Register()`. -/
  | register (component : ComponentInterface)
deriving DecidableEq, Repr

/-- What a call leaves behind: the registries, the actions performed and whether the
call ended in a panic instead of returning. -/
structure Exec where
  gm : GameManager
  trace : List Effect
  panicked : Bool
deriving DecidableEq, Repr

/-- How a call of a function value ends: the registries as the call leaves them (it
has the manager and may call `RegisterHandler`, `Event`, `AddComponents`), and whether
it ended in a panic instead of returning.  A nil function value or a nil component is
a call that panics at once. -/
structure Called where
  gm : GameManager
  panicked : Bool
deriving DecidableEq, Repr

/-- Behaviour of the function values the manager calls back: the handlers `sub(e)`,
and the methods `Register()` and `SetGM(GM)` of the components. -/
structure Callbacks where
  handler : EventHandler → Event → GameManager → Called
  Register : ComponentInterface → GameManager → Called
  SetGM : ComponentInterface → GameManager → Called

/-- The registries of `NewGame()`. -/
def NewGame : GameManager :=
  { Components := sync.Map.empty, Subscribers := sync.Map.empty, Events := sync.Map.empty }

/-- `RegisterHandler`: load the list stored for `n` (empty when none), append `h`,
store it back. -/
def GameManager.RegisterHandler (GM : GameManager) (n : String) (h : EventHandler) :
    GameManager :=
  let handlers : List EventHandler :=
    match GM.Subscribers.Load n with
    | some reg => reg
    | none => []
  { GM with Subscribers := GM.Subscribers.Store n (handlers ++ [h]) }

/-- The loop of `AddComponents` over the pairs still to come: log, `value.SetGM(GM)`,
store.  A panic of `SetGM` ends the call: the pair is not stored and the pairs after
it are not reached. -/
def addRange (cb : Callbacks) :
    List (String × ComponentInterface) → GameManager → List Effect → Exec
  | [], gm, tr => { gm := gm, trace := tr, panicked := false }
  | (key, value) :: rest, gm, tr =>
    if (cb.SetGM value gm).panicked then
      { gm := (cb.SetGM value gm).gm
        trace := tr ++
          [Effect.log Level.debug "Loading component %s" (Arg.str key), Effect.setGM value]
        panicked := true }
    else
      addRange cb rest
        { (cb.SetGM value gm).gm with
          Components := (cb.SetGM value gm).gm.Components.Store key value }
        (tr ++
          [Effect.log Level.debug "Loading component %s" (Arg.str key), Effect.setGM value])

/-- `AddComponents`, on the Go map given as the list of its pairs in the order the
`range` statement yields them. -/
def GameManager.AddComponents (cb : Callbacks) (GM : GameManager)
    (components : List (String × ComponentInterface)) : Exec :=
  addRange cb components GM []

/-- The `Range` of `RegisterComponents` over the keys still to visit.  The component
is the one stored under the key when the key is reached; a key with nothing stored is
passed over.  A panic of `Register` ends the whole call: nothing recovers it. -/
def registerRange (cb : Callbacks) :
    List String → GameManager → List Effect → Exec
  | [], gm, tr => { gm := gm, trace := tr, panicked := false }
  | k :: rest, gm, tr =>
    match gm.Components.Load k with
    | none => registerRange cb rest gm tr
    | some component =>
      if (cb.Register component gm).panicked then
        { gm := (cb.Register component gm).gm
          trace := tr ++ [Effect.register component]
          panicked := true }
      else
        registerRange cb rest (cb.Register component gm).gm
          (tr ++ [Effect.register component,
                  Effect.log Level.debug "Registered component %s" (Arg.str k)])

/-- `RegisterComponents`, with `Range` going through the keys of `order`. -/
def GameManager.RegisterComponents (cb : Callbacks) (order : List String)
    (GM : GameManager) : Exec :=
  registerRange cb order GM []

/-- `FireEvent`.  The type assertion `def.(EventDefinition)` stands before the test
of `ok`: on the nil interface that `Load` returns for a missing key it panics. -/
def GameManager.FireEvent (GM : GameManager) (e : Event) : Exec :=
  let dfn := GM.Events.Load e.Name
  let ok := dfn.isSome
  match dfn with
  | none => { gm := GM, trace := [], panicked := true }
  | some definition =>
    if !ok then
      { gm := GM
        trace := [Effect.log Level.error "Unable to locate a triggered event %s"
                    (Arg.str e.Name)]
        panicked := false }
    else
      { gm := GM
        trace :=
          (if definition.Internal then [Effect.go (Task.sendInternalEvent e)] else []) ++
          (if definition.Websocket then
            [Effect.go (Task.sendWebsocketEvent e definition.Broadcast)] else [])
        panicked := false }

/-- The loop of `sendInternalEvent` over the handlers still to call.  A panic of a
handler ends the call: nothing recovers it and the handlers after it are not called. -/
def invokeRange (cb : Callbacks) (e : Event) :
    List EventHandler → GameManager → List Effect → Exec
  | [], gm, tr => { gm := gm, trace := tr, panicked := false }
  | sub :: rest, gm, tr =>
    if (cb.handler sub e gm).panicked then
      { gm := (cb.handler sub e gm).gm
        trace := tr ++ [Effect.invoke sub e]
        panicked := true }
    else
      invokeRange cb e rest (cb.handler sub e gm).gm (tr ++ [Effect.invoke sub e])

/-- `sendInternalEvent`: the subscriber list is loaded once and the handlers in it are
called in turn with `e`. -/
def GameManager.sendInternalEvent (cb : Callbacks) (GM : GameManager) (e : Event) : Exec :=
  match GM.Subscribers.Load e.Name with
  | none =>
    { gm := GM
      trace := [Effect.log Level.warning "Event called with no active subscribers: %s"
                  (Arg.str e.Name)]
      panicked := false }
  | some subscribers => invokeRange cb e subscribers GM []

/-- `sendWebsocketEvent`: broadcast, or a direct send to the client named by
`e.ClientId`. -/
def GameManager.sendWebsocketEvent (srv : Server) (GM : GameManager) (e : Event)
    (b : Bool) : Exec :=
  if b then
    { gm := GM, trace := [Effect.broadcast e], panicked := false }
  else if !b && e.ClientId == "" then
    { gm := GM
      trace := [Effect.log Level.error "Direct event sent with no client id: %+v"
                  (Arg.event e)]
      panicked := false }
  else
    match srv.Find e.ClientId with
    | none =>
      { gm := GM
        trace := [Effect.find e.ClientId,
                  Effect.log Level.error "Direct event sent with unknown client: %s"
                    (Arg.str e.ClientId)]
        panicked := false }
    | some client =>
      { gm := GM
        trace := [Effect.find e.ClientId, Effect.send client.Send e]
        panicked := false }

/-- `Event`: store the definition under its name. -/
def GameManager.Event (GM : GameManager) (e : EventDefinition) : GameManager :=
  { GM with Events := GM.Events.Store e.Name e }

/-- The handler calls recorded in a trace, in order: which handler, with which event. -/
def invoked : List Effect → List (EventHandler × Event)
  | [] => []
  | Effect.invoke sub e :: rest => (sub, e) :: invoked rest
  | _ :: rest => invoked rest

/-- Successive calls `RegisterHandler(n, h)` for the handlers of `hs`, in order. -/
def registerHandlers (GM : GameManager) (n : String) (hs : List EventHandler) : GameManager :=
  hs.foldl (fun g h => g.RegisterHandler n h) GM

/-- Successive calls of `AddComponents`, one per element of `calls`, in order; a call
that panics is the last one made. -/
def addComponentsSeq (cb : Callbacks) :
    List (List (String × ComponentInterface)) → GameManager → List Effect → Exec
  | [], gm, tr => { gm := gm, trace := tr, panicked := false }
  | components :: rest, gm, tr =>
    if (gm.AddComponents cb components).panicked then
      { gm := (gm.AddComponents cb components).gm
        trace := tr ++ (gm.AddComponents cb components).trace
        panicked := true }
    else
      addComponentsSeq cb rest (gm.AddComponents cb components).gm
        (tr ++ (gm.AddComponents cb components).trace)

/-- Where a call of `RegisterHandler` stands: before its `Load`, between its `Load`
and its `Store` (holding the slice `handlers` it has loaded), or returned. -/
inductive RegisterPc where
  | atLoad
  | atStore (handlers : List EventHandler)
  | returned
deriving DecidableEq, Repr

/-- One step of a call `RegisterHandler(n, h)`: first the `Load` with the type
assertion on its result, then the `append` and the `Store`.  `Load` and `Store` are
each atomic on a `sync.Map`; the code has nothing that makes the pair atomic. -/
def registerHandlerStep (n : String) (h : EventHandler) :
    RegisterPc → GameManager → RegisterPc × GameManager
  | RegisterPc.atLoad, GM =>
    (RegisterPc.atStore
      (match GM.Subscribers.Load n with
       | some reg => reg
       | none => []), GM)
  | RegisterPc.atStore handlers, GM =>
    (RegisterPc.returned,
     { GM with Subscribers := GM.Subscribers.Store n (handlers ++ [h]) })
  | RegisterPc.returned, GM => (RegisterPc.returned, GM)

/-- Two calls of `RegisterHandler` running in two goroutines over one manager. -/
structure TwoRegisters where
  pc1 : RegisterPc
  pc2 : RegisterPc
  gm : GameManager
deriving DecidableEq, Repr

/-- The scheduler lets the first call (`true`) or the second call (`false`) take its
next step. -/
def twoRegistersStep (n : String) (h1 h2 : EventHandler) (first : Bool)
    (s : TwoRegisters) : TwoRegisters :=
  if first then
    { pc1 := (registerHandlerStep n h1 s.pc1 s.gm).1, pc2 := s.pc2
      gm := (registerHandlerStep n h1 s.pc1 s.gm).2 }
  else
    { pc1 := s.pc1, pc2 := (registerHandlerStep n h2 s.pc2 s.gm).1
      gm := (registerHandlerStep n h2 s.pc2 s.gm).2 }

/-- The calls `RegisterHandler(n, h1)` and `RegisterHandler(n, h2)` started together on
`GM` and run under the given schedule. -/
def twoRegistersRun (n : String) (h1 h2 : EventHandler) (schedule : List Bool)
    (GM : GameManager) : TwoRegisters :=
  schedule.foldl (fun s first => twoRegistersStep n h1 h2 first s)
    { pc1 := RegisterPc.atLoad, pc2 := RegisterPc.atLoad, gm := GM }

/-- Where the goroutine that called `Run` stands: before `wg.Add(1)`, before the `go`
statement, in `wg.Wait()`, before `GM.Log.Debug`, or returned. -/
inductive RunPc where
  | atAdd
  | atGo
  | atWait
  | atDebug
  | returned
deriving DecidableEq, Repr

/-- The goroutine of `go GM.RegisterComponents()`: not started, started, or ended. -/
inductive Goroutine where
  | notStarted
  | started
  | ended
deriving DecidableEq, Repr

/-- State of an execution of `Run`: the place of the calling goroutine, the counter of
the local `sync.WaitGroup` (zero when declared), the goroutine it starts, the
registries, the actions of `RegisterComponents`, the messages passed to
`GM.Log.Debug`, and whether the process has died of a panic in the started
goroutine. -/
structure RunState where
  pc : RunPc
  wg : Nat
  worker : Goroutine
  gm : GameManager
  trace : List Effect
  debug : List String
  crashed : Bool
deriving DecidableEq, Repr

/-- The state in which `Run` is entered. -/
def runInit (GM : GameManager) : RunState :=
  { pc := RunPc.atAdd, wg := 0, worker := Goroutine.notStarted, gm := GM, trace := []
    debug := [], crashed := false }

/-- The next step of the goroutine that called `Run`.  `wg.Add(1)` raises the counter;
`wg.Wait()` returns only when the counter is zero and otherwise stays blocked; `Run`
contains no `wg.Done()` and hands `wg` to nobody. -/
def runMainStep (s : RunState) : RunState :=
  match s.pc with
  | RunPc.atAdd => { s with wg := s.wg + 1, pc := RunPc.atGo }
  | RunPc.atGo => { s with worker := Goroutine.started, pc := RunPc.atWait }
  | RunPc.atWait => if s.wg = 0 then { s with pc := RunPc.atDebug } else s
  | RunPc.atDebug => { s with debug := s.debug ++ ["Game has started..."], pc := RunPc.returned }
  | RunPc.returned => s

/-- The started goroutine runs `RegisterComponents`, its `Range` going through the
keys of `order`; a panic in it ends the process. -/
def runWorkerStep (cb : Callbacks) (order : List String) (s : RunState) : RunState :=
  match s.worker with
  | Goroutine.started =>
    { s with gm := (s.gm.RegisterComponents cb order).gm
             trace := s.trace ++ (s.gm.RegisterComponents cb order).trace
             worker := Goroutine.ended
             crashed := (s.gm.RegisterComponents cb order).panicked }
  | Goroutine.notStarted => s
  | Goroutine.ended => s

/-- One scheduling decision: the calling goroutine (`true`) or the started one
(`false`) takes its next step; nothing moves once the process has died. -/
def runStep (cb : Callbacks) (order : List String) (main : Bool) (s : RunState) : RunState :=
  if s.crashed then s
  else if main then runMainStep s
  else runWorkerStep cb order s

/-- An execution of `Run()` on `GM` under the given schedule, with the `Range` of the
started goroutine going through the keys of `order`. -/
def GameManager.Run (cb : Callbacks) (order : List String) (schedule : List Bool)
    (GM : GameManager) : RunState :=
  schedule.foldl (fun s main => runStep cb order main s) (runInit GM)

end engine

namespace di

/-- A Go value of type `interface{}` as far as the container is concerned: nil, a
string, a pointer to an allocated object, or a struct built around another value
(such as `ParamBag` around its `TestDependency`). -/
inductive Value where
  | nil
  | str (s : String)
  | ptr (addr : Nat)
  | struct (typ : String) (field : Value)
deriving DecidableEq, Repr

/-- A Go `error`: `none` is the nil error, `some msg` is `errors.New(msg)`. -/
abbrev error := Option String

/-- A `BuildFunc`, `func(*Container) (interface{}, error)`, described by what it does
with the container it is given: it returns a value and an error, or it calls
`ctx.Get(n)` or `ctx.MustGet(n)` and goes on with the result. -/
inductive BuildFunc where
  | ret (v : Value) (err : error)
  | get (n : String) (k : Value → error → BuildFunc)
  | mustGet (n : String) (k : Value → BuildFunc)

/-- The `Dependency` struct. -/
structure Dependency where
  Name : String
  Shared : Bool
  Build : BuildFunc

/-- The `CacheInterface` as `Get` uses it, backed by go-cache: entries are set with
`cache.NoExpiration`, so an entry stays until it is set again. -/
structure Cache where
  items : sync.Map Value
deriving DecidableEq, Repr

/-- Go `Cache.Set(k, v, cache.NoExpiration)`. -/
def Cache.Set (c : Cache) (k : String) (v : Value) : Cache :=
  ⟨c.items.Store k v⟩

/-- Go `Cache.Get(k)`: `none` where Go returns `(nil, false)`. -/
def Cache.Get (c : Cache) (k : String) : Option Value :=
  c.items.Load k

/-- The `Container` struct. -/
structure Container where
  Dependencies : sync.Map Dependency
  Cache : Cache

/-- One invocation `dep.Build(c)` made by a call of `Get`: the name of the dependency
built and the invocations made, in turn, by the calls of `Get` inside that build. -/
inductive Call where
  | build (name : String) (inner : List Call)

/-- How a call ends: it returns a value and an error, or it panics with an error. -/
inductive Outcome where
  | returned (v : Value) (err : error)
  | panicked (err : String)
deriving DecidableEq, Repr

/-- What a call of `Get` or `MustGet` leaves behind: how it ended, the container
afterwards, and the `Build` invocations it made itself. -/
structure Run where
  outcome : Outcome
  c : Container
  calls : List Call

/-- `NewContainer()`. -/
def NewContainer : Container :=
  { Dependencies := sync.Map.empty, Cache := ⟨sync.Map.empty⟩ }

/-- `Add`: store the dependency under its name; nothing is built and the cache is not
touched. -/
def Container.Add (c : Container) (d : Dependency) : Container :=
  { c with Dependencies := c.Dependencies.Store d.Name d }

/-- `Fetch`: the dependency stored under `n`, or the error.  (Go also returns an empty
`&Dependency` next to the error; `Get` drops it.) -/
def Container.Fetch (c : Container) (n : String) : Except String Dependency :=
  match c.Dependencies.Load n with
  | none => Except.error ("Unable to find dependency with name " ++ n)
  | some dep => Except.ok dep

/-- `getFromCache`. -/
def Container.getFromCache (c : Container) (n : String) : Value × error :=
  match c.Cache.Get n with
  | none => (Value.nil, some "Dependency not found in the cache")
  | some inst => (inst, none)

/-- `MustGet`, written over the `Get` it calls: the value of `Get`, or a panic with
the error `Get` returned. -/
def mustGetVia (get : Container → String → Option Run) (c : Container) (n : String) :
    Option Run :=
  match get c n with
  | none => none
  | some r =>
    match r.outcome with
    | Outcome.returned dep err =>
      match err with
      | some msg => some { r with outcome := Outcome.panicked msg }
      | none => some { r with outcome := Outcome.returned dep none }
    | Outcome.panicked msg => some { r with outcome := Outcome.panicked msg }

/-- Running a `BuildFunc` on the container `c`, given the `Get` of that container.
A panic inside `Get` or `MustGet` ends the build.  `none` means that `get` did not
come back. -/
def runBuild (get : Container → String → Option Run) : BuildFunc → Container → Option Run
  | BuildFunc.ret v err, c => some { outcome := Outcome.returned v err, c := c, calls := [] }
  | BuildFunc.get n k, c =>
    match get c n with
    | none => none
    | some r =>
      match r.outcome with
      | Outcome.panicked msg => some { r with outcome := Outcome.panicked msg }
      | Outcome.returned v err =>
        match runBuild get (k v err) r.c with
        | none => none
        | some r2 => some { r2 with calls := r.calls ++ r2.calls }
  | BuildFunc.mustGet n k, c =>
    match mustGetVia get c n with
    | none => none
    | some r =>
      match r.outcome with
      | Outcome.panicked msg => some { r with outcome := Outcome.panicked msg }
      | Outcome.returned v _ =>
        match runBuild get (k v) r.c with
        | none => none
        | some r2 => some { r2 with calls := r.calls ++ r2.calls }

/-- `Get`.  Builds may call `Get` again, so the function is given a bound `fuel` on
the depth of nested calls; `none` means the bound was too small. -/
def Container.Get : Nat → Container → String → Option Run
  | 0, _, _ => none
  | fuel + 1, c, n =>
    match c.Fetch n with
    | Except.error err =>
      some { outcome := Outcome.returned Value.nil (some err), c := c, calls := [] }
    | Except.ok dep =>
      let cached : Option Value :=
        if dep.Shared then
          match c.getFromCache n with
          | (i, none) => some i
          | (_, some _) => none
        else none
      match cached with
      | some i => some { outcome := Outcome.returned i none, c := c, calls := [] }
      | none =>
        match runBuild (Container.Get fuel) dep.Build c with
        | none => none
        | some r =>
          match r.outcome with
          | Outcome.panicked msg =>
            some { outcome := Outcome.panicked msg, c := r.c
                   calls := [Call.build dep.Name r.calls] }
          | Outcome.returned i err =>
            some { outcome := Outcome.returned i err
                   c := if err = none ∧ dep.Shared = true then
                          { r.c with Cache := r.c.Cache.Set dep.Name i }
                        else r.c
                   calls := [Call.build dep.Name r.calls] }

/-- `MustGet`. -/
def Container.MustGet (fuel : Nat) (c : Container) (n : String) : Option Run :=
  mustGetVia (Container.Get fuel) c n

mutual
/-- Whether the invocation `call`, or one made inside it, is the build of a dependency
named `n`. -/
def Call.builds (n : String) : Call → Bool
  | Call.build name inner => name == n || Call.buildsAny n inner
/-- Whether one of the invocations of `calls`, or one made inside them, is the build of
a dependency named `n`. -/
def Call.buildsAny (n : String) : List Call → Bool
  | [] => false
  | call :: calls => Call.builds n call || Call.buildsAny n calls
end

end di

/-! ## Theorems: `sync.Map` -/

namespace sync.Map

variable {α : Type}

theorem lookup_filter_ne (es : List (String × α)) (k k1 : String) (h : k1 ≠ k) :
    (es.filter (fun p => p.1 != k)).lookup k1 = es.lookup k1 := by
  induction es with
  | nil => rfl
  | cons p rest ih =>
    obtain ⟨a, b⟩ := p
    by_cases hak : a = k
    · subst hak
      have h1 : (k1 == a) = false := by simpa using h
      simp [List.filter_cons, List.lookup_cons, h1, ih]
    · by_cases hk1 : k1 = a
      · subst hk1
        simp [List.filter_cons, List.lookup_cons, hak]
      · have h1 : (k1 == a) = false := by simpa using hk1
        simp [List.filter_cons, List.lookup_cons, hak, h1, ih]

theorem Load_Store_self (m : Map α) (k : String) (v : α) : (m.Store k v).Load k = some v := by
  simp [Load, Store, List.lookup_cons]

theorem Load_Store_of_ne (m : Map α) (k k1 : String) (v : α) (h : k1 ≠ k) :
    (m.Store k v).Load k1 = m.Load k1 := by
  have h1 : (k1 == k) = false := by simpa using h
  simp [Load, Store, List.lookup_cons, h1, lookup_filter_ne m.entries k k1 h]

theorem keys_nodup_Store (m : Map α) (k : String) (v : α)
    (h : (m.entries.map Prod.fst).Nodup) : ((m.Store k v).entries.map Prod.fst).Nodup := by
  have hsub : ((m.entries.filter (fun p => p.1 != k)).map Prod.fst).Sublist
      (m.entries.map Prod.fst) := (List.filter_sublist _).map _
  have hnot : k ∉ (m.entries.filter (fun p => p.1 != k)).map Prod.fst := by
    intro hk
    rcases List.mem_map.1 hk with ⟨p, hp, hpk⟩
    have := (List.mem_filter.1 hp).2
    simp [hpk] at this
  simpa [Store, List.nodup_cons] using And.intro hnot (h.sublist hsub)

theorem mem_iff_lookup (es : List (String × α)) (h : (es.map Prod.fst).Nodup)
    (k : String) (v : α) : (k, v) ∈ es ↔ es.lookup k = some v := by
  induction es with
  | nil => simp
  | cons p rest ih =>
    obtain ⟨a, b⟩ := p
    have hn : a ∉ rest.map Prod.fst ∧ (rest.map Prod.fst).Nodup :=
      List.nodup_cons.1 (by rw [List.map_cons] at h; exact h)
    have ih1 := ih hn.2
    by_cases hk : k = a
    · subst hk
      have hnot : (k, v) ∉ rest := fun hm => hn.1 (List.mem_map.2 ⟨(k, v), hm, rfl⟩)
      simp only [List.mem_cons, Prod.mk.injEq, true_and, List.lookup_cons, beq_self_eq_true,
        Option.some.injEq]
      constructor
      · rintro (h1 | h1)
        · exact h1.symm
        · exact absurd h1 hnot
      · intro h1
        exact Or.inl h1.symm
    · have h1 : (k == a) = false := by simpa using hk
      simp [List.lookup_cons, h1, hk, ih1]

theorem Load_foldl_Store (comps : List (String × α)) :
    ∀ (m : Map α) (k : String),
      (comps.foldl (fun m kv => m.Store kv.1 kv.2) m).Load k
        = (comps.reverse.lookup k).or (m.Load k) := by
  induction comps with
  | nil => intro m k; simp
  | cons p rest ih =>
    intro m k
    obtain ⟨a, b⟩ := p
    rw [List.foldl_cons, ih (m.Store a b) k, List.reverse_cons, List.lookup_append]
    by_cases hk : k = a
    · subst hk
      cases List.lookup k rest.reverse <;> simp [Load_Store_self, List.lookup_cons]
    · have h1 : (k == a) = false := by simpa using hk
      cases List.lookup k rest.reverse <;>
        simp [Load_Store_of_ne m a k b hk, List.lookup_cons, h1]

theorem keys_nodup_foldl_Store (comps : List (String × α)) :
    ∀ (m : Map α), (m.entries.map Prod.fst).Nodup →
      ((comps.foldl (fun m kv => m.Store kv.1 kv.2) m).entries.map Prod.fst).Nodup := by
  induction comps with
  | nil => intro m h; simpa using h
  | cons p rest ih =>
    intro m h
    exact ih (m.Store p.1 p.2) (keys_nodup_Store m p.1 p.2 h)

end sync.Map

/-! ## Theorems: the event engine -/

namespace engine

/-- C1 (what the code does): for every manager state and every event whose name has
no stored definition, `FireEvent` ends in a panic of the type assertion
`def.(EventDefinition)`; it reports no error, starts no goroutine and leaves the
registries as they were. -/
theorem fireEvent_undefined_panics (GM : GameManager) (e : Event)
    (h : GM.Events.Load e.Name = none) :
    GM.FireEvent e = { gm := GM, trace := [], panicked := true } := by
  simp [GameManager.FireEvent, h]

theorem fireEvent_undefined_panics_witness :
    NewGame.Events.Load (Event.mk "unregistered" "" "").Name = none ∧
    NewGame.FireEvent (Event.mk "unregistered" "" "") =
      { gm := NewGame, trace := [], panicked := true } :=
  ⟨by decide, fireEvent_undefined_panics NewGame (Event.mk "unregistered" "" "") (by decide)⟩

theorem fireEvent_defined (GM : GameManager) (e : Event) (d : EventDefinition)
    (h : GM.Events.Load e.Name = some d) :
    GM.FireEvent e = Exec.mk GM
      ((if d.Internal then [Effect.go (Task.sendInternalEvent e)] else []) ++
       (if d.Websocket then [Effect.go (Task.sendWebsocketEvent e d.Broadcast)] else []))
      false := by
  simp [GameManager.FireEvent, h]

theorem go_internal_mem (GM : GameManager) (e : Event) (d : EventDefinition)
    (h : GM.Events.Load e.Name = some d) (e1 : Event) :
    Effect.go (Task.sendInternalEvent e1) ∈ (GM.FireEvent e).trace ↔
      (d.Internal = true ∧ e1 = e) := by
  rw [fireEvent_defined GM e d h]
  cases d.Internal <;> cases d.Websocket <;> simp

theorem go_websocket_mem (GM : GameManager) (e : Event) (d : EventDefinition)
    (h : GM.Events.Load e.Name = some d) (e1 : Event) (b : Bool) :
    Effect.go (Task.sendWebsocketEvent e1 b) ∈ (GM.FireEvent e).trace ↔
      (d.Websocket = true ∧ e1 = e ∧ b = d.Broadcast) := by
  rw [fireEvent_defined GM e d h]
  cases d.Internal <;> cases d.Websocket <;> simp

/-- C3: for every event `e` whose name has the stored definition `d`, `FireEvent`
returns normally and the goroutines it starts are: the internal dispatch of `e`
exactly when `d.Internal`, and the external dispatch of `e` with flag `d.Broadcast`
exactly when `d.Websocket`; with both flags false nothing is started. -/
theorem fireEvent_schedules (GM : GameManager) (e : Event) (d : EventDefinition)
    (h : GM.Events.Load e.Name = some d) :
    (GM.FireEvent e).panicked = false ∧
    (GM.FireEvent e).gm = GM ∧
    (GM.FireEvent e).trace =
      (if d.Internal then [Effect.go (Task.sendInternalEvent e)] else []) ++
      (if d.Websocket then [Effect.go (Task.sendWebsocketEvent e d.Broadcast)] else []) ∧
    (∀ e1, Effect.go (Task.sendInternalEvent e1) ∈ (GM.FireEvent e).trace ↔
      (d.Internal = true ∧ e1 = e)) ∧
    (∀ e1 b, Effect.go (Task.sendWebsocketEvent e1 b) ∈ (GM.FireEvent e).trace ↔
      (d.Websocket = true ∧ e1 = e ∧ b = d.Broadcast)) ∧
    (d.Internal = false → d.Websocket = false → (GM.FireEvent e).trace = []) := by
  refine ⟨?_, ?_, ?_, go_internal_mem GM e d h, go_websocket_mem GM e d h, ?_⟩
  · rw [fireEvent_defined GM e d h]
  · rw [fireEvent_defined GM e d h]
  · rw [fireEvent_defined GM e d h]
  · intro hi hw
    rw [fireEvent_defined GM e d h]
    simp [hi, hw]

theorem fireEvent_schedules_witness :
    (NewGame.Event (EventDefinition.mk "chat" true true true)).Events.Load
        (Event.mk "chat" "" "hi").Name = some (EventDefinition.mk "chat" true true true) ∧
    ((NewGame.Event (EventDefinition.mk "chat" true true true)).FireEvent
        (Event.mk "chat" "" "hi")).trace =
      [Effect.go (Task.sendInternalEvent (Event.mk "chat" "" "hi")),
       Effect.go (Task.sendWebsocketEvent (Event.mk "chat" "" "hi") true)] :=
  ⟨by decide,
   (fireEvent_schedules (NewGame.Event (EventDefinition.mk "chat" true true true))
      (Event.mk "chat" "" "hi") (EventDefinition.mk "chat" true true true)
      (by decide)).2.2.1⟩

theorem load_registerHandler (GM : GameManager) (n : String) (h : EventHandler) :
    (GM.RegisterHandler n h).Subscribers.Load n =
      some ((GM.Subscribers.Load n).getD [] ++ [h]) := by
  unfold GameManager.RegisterHandler
  cases hl : GM.Subscribers.Load n <;> simp [sync.Map.Load_Store_self]

theorem load_registerHandlers (n : String) (hs : List EventHandler) :
    ∀ (GM : GameManager) (prior : List EventHandler),
      GM.Subscribers.Load n = some prior →
      (registerHandlers GM n hs).Subscribers.Load n = some (prior ++ hs) := by
  induction hs with
  | nil => intro GM prior h; simpa [registerHandlers] using h
  | cons a t ih =>
    intro GM prior h
    have h1 := load_registerHandler GM n a
    rw [h] at h1
    have h2 := ih (GM.RegisterHandler n a) (prior ++ [a]) (by simpa using h1)
    simpa [registerHandlers] using h2

theorem invokeRange_returns (cb : Callbacks) (e : Event) (subs : List EventHandler)
    (hret : ∀ h ∈ subs, ∀ g, (cb.handler h e g).panicked = false) :
    ∀ (gm : GameManager) (tr : List Effect),
      (invokeRange cb e subs gm tr).trace = tr ++ subs.map (fun h => Effect.invoke h e) ∧
      (invokeRange cb e subs gm tr).panicked = false := by
  induction subs with
  | nil => intro gm tr; simp [invokeRange]
  | cons a t ih =>
    intro gm tr
    have ha := hret a (List.mem_cons_self _ _) gm
    have h := ih (fun h hh g => hret h (List.mem_cons_of_mem _ hh) g)
      (cb.handler a e gm).gm (tr ++ [Effect.invoke a e])
    simpa [invokeRange, ha] using h

theorem invoked_map (e : Event) (hs : List EventHandler) :
    invoked (hs.map (fun h => Effect.invoke h e)) = hs.map (fun h => (h, e)) := by
  induction hs with
  | nil => rfl
  | cons a t ih => simp [invoked, ih]

theorem sendInternal_of_load (cb : Callbacks) (GM : GameManager) (e : Event)
    (subs : List EventHandler) (h : GM.Subscribers.Load e.Name = some subs)
    (hret : ∀ h ∈ subs, ∀ g, (cb.handler h e g).panicked = false) :
    (GM.sendInternalEvent cb e).trace = subs.map (fun h => Effect.invoke h e) ∧
    (GM.sendInternalEvent cb e).panicked = false := by
  have hf := invokeRange_returns cb e subs hret GM []
  simpa [GameManager.sendInternalEvent, h] using hf

/-- C2 (as the code has it): on a manager with no subscribers stored for `n`, after
the successive calls `RegisterHandler(n, h1)`, ..., `RegisterHandler(n, hk)`, when
every call of one of these handlers with `e` returns, the internal dispatch of an
event `e` named `n` calls exactly `h1`, ..., `hk`, each once, in that order, each with
`e`, and returns normally; when `k > 0` these calls are all it does. -/
theorem sendInternalEvent_registration_order (cb : Callbacks) (GM : GameManager)
    (n : String) (hs : List EventHandler) (e : Event)
    (hn : e.Name = n) (h0 : GM.Subscribers.Load n = none)
    (hret : ∀ h ∈ hs, ∀ g, (cb.handler h e g).panicked = false) :
    invoked ((registerHandlers GM n hs).sendInternalEvent cb e).trace
      = hs.map (fun h => (h, e)) ∧
    ((registerHandlers GM n hs).sendInternalEvent cb e).panicked = false ∧
    (hs ≠ [] → ((registerHandlers GM n hs).sendInternalEvent cb e).trace
      = hs.map (fun h => Effect.invoke h e)) := by
  subst hn
  cases hs with
  | nil =>
    simp [registerHandlers, GameManager.sendInternalEvent, h0, invoked]
  | cons a t =>
    have h1 := load_registerHandler GM e.Name a
    rw [h0] at h1
    have h2 := load_registerHandlers e.Name t (GM.RegisterHandler e.Name a) [a]
      (by simpa using h1)
    have h3 : (registerHandlers GM e.Name (a :: t)).Subscribers.Load e.Name
        = some (a :: t) := by
      simpa [registerHandlers] using h2
    have h4 := sendInternal_of_load cb _ e (a :: t) h3 hret
    refine ⟨?_, h4.2, fun _ => h4.1⟩
    rw [h4.1]
    exact invoked_map e (a :: t)

theorem sendInternalEvent_registration_order_witness :
    (Event.mk "chat" "" "hi").Name = "chat" ∧
    NewGame.Subscribers.Load "chat" = none ∧
    invoked ((registerHandlers NewGame "chat" [7, 3, 7]).sendInternalEvent
        (Callbacks.mk (fun _ _ g => Called.mk g false) (fun _ g => Called.mk g false)
      (fun _ g => Called.mk g false)) (Event.mk "chat" "" "hi")).trace
      = [(7, Event.mk "chat" "" "hi"), (3, Event.mk "chat" "" "hi"),
         (7, Event.mk "chat" "" "hi")] :=
  ⟨by decide, by decide,
   (sendInternalEvent_registration_order (Callbacks.mk (fun _ _ g => Called.mk g false) (fun _ g => Called.mk g false)
      (fun _ g => Called.mk g false))
      NewGame "chat" [7, 3, 7] (Event.mk "chat" "" "hi") (by decide) (by decide)
      (fun _ _ _ => rfl)).1⟩

/-- C2 (the claim as stated fails): handlers `1` and `2` are registered for "chat" in
that order on a new manager, and handler `1` panics when called.  The dispatch calls
handler `1`, ends in its panic and never calls handler `2`. -/
theorem sendInternalEvent_panicking_handler :
    NewGame.Subscribers.Load "chat" = none ∧
    ((registerHandlers NewGame "chat" [1, 2]).sendInternalEvent
        (Callbacks.mk (fun h _ g => Called.mk g (h == 1)) (fun _ g => Called.mk g false)
          (fun _ g => Called.mk g false))
        (Event.mk "chat" "" "hi")).trace
      = [Effect.invoke 1 (Event.mk "chat" "" "hi")] ∧
    ((registerHandlers NewGame "chat" [1, 2]).sendInternalEvent
        (Callbacks.mk (fun h _ g => Called.mk g (h == 1)) (fun _ g => Called.mk g false)
          (fun _ g => Called.mk g false))
        (Event.mk "chat" "" "hi")).panicked = true ∧
    invoked ((registerHandlers NewGame "chat" [1, 2]).sendInternalEvent
        (Callbacks.mk (fun h _ g => Called.mk g (h == 1)) (fun _ g => Called.mk g false)
          (fun _ g => Called.mk g false))
        (Event.mk "chat" "" "hi")).trace
      ≠ [(1, Event.mk "chat" "" "hi"), (2, Event.mk "chat" "" "hi")] := by
  decide

/-- C5: for an event `e` fired under a definition `d` with `Websocket = true` and
`Broadcast = false`, `FireEvent` starts the external dispatch with flag `false`; if
`e.ClientId` is empty or `Find` does not know it, that dispatch sends `e` on no
channel and calls no `Broadcast`: it logs one error and returns.  With an empty
`ClientId` the error is all it does (`Find` is not called); with an unknown one it
calls `Find` once and logs the error. -/
theorem sendWebsocketEvent_direct_dropped (srv : Server) (GM : GameManager) (e : Event)
    (d : EventDefinition) (hd : GM.Events.Load e.Name = some d)
    (hw : d.Websocket = true) (hb : d.Broadcast = false)
    (h : e.ClientId = "" ∨ srv.Find e.ClientId = none) :
    Effect.go (Task.sendWebsocketEvent e false) ∈ (GM.FireEvent e).trace ∧
    (∀ ch e1, Effect.send ch e1 ∉ (GM.sendWebsocketEvent srv e false).trace) ∧
    (∀ e1, Effect.broadcast e1 ∉ (GM.sendWebsocketEvent srv e false).trace) ∧
    (GM.sendWebsocketEvent srv e false).panicked = false ∧
    (e.ClientId = "" →
      (GM.sendWebsocketEvent srv e false).trace =
        [Effect.log Level.error "Direct event sent with no client id: %+v" (Arg.event e)]) ∧
    (e.ClientId ≠ "" →
      (GM.sendWebsocketEvent srv e false).trace =
        [Effect.find e.ClientId,
         Effect.log Level.error "Direct event sent with unknown client: %s"
           (Arg.str e.ClientId)]) := by
  have hgo : Effect.go (Task.sendWebsocketEvent e false) ∈ (GM.FireEvent e).trace := by
    rw [go_websocket_mem GM e d hd e false]
    exact ⟨hw, rfl, hb.symm⟩
  refine ⟨hgo, ?_⟩
  by_cases hc : e.ClientId = ""
  · simp [GameManager.sendWebsocketEvent, hc]
  · have hf : srv.Find e.ClientId = none := by
      rcases h with h | h
      · exact absurd h hc
      · exact h
    simp [GameManager.sendWebsocketEvent, hc, hf]

theorem sendWebsocketEvent_direct_dropped_witness :
    (NewGame.Event (EventDefinition.mk "whisper" false true false)).Events.Load
        (Event.mk "whisper" "B" "psst").Name
      = some (EventDefinition.mk "whisper" false true false) ∧
    ((NewGame.Event (EventDefinition.mk "whisper" false true false)).sendWebsocketEvent
        (Server.mk (fun _ => none)) (Event.mk "whisper" "B" "psst") false).trace =
      [Effect.find "B",
       Effect.log Level.error "Direct event sent with unknown client: %s" (Arg.str "B")] :=
  ⟨by decide,
   (sendWebsocketEvent_direct_dropped (Server.mk (fun _ => none))
      (NewGame.Event (EventDefinition.mk "whisper" false true false))
      (Event.mk "whisper" "B" "psst") (EventDefinition.mk "whisper" false true false)
      (by decide) rfl rfl (Or.inr rfl)).2.2.2.2.2 (by decide)⟩

/-- C8: for an event `e` with a non-empty `ClientId` that `Find` resolves to the
client `c`, fired under a definition with `Websocket = true` and `Broadcast = false`,
the external dispatch calls `Find` once and then sends `e` once on `c.Send`: one send
in all, on no other channel, and no `Broadcast`. -/
theorem sendWebsocketEvent_direct_delivered (srv : Server) (GM : GameManager) (e : Event)
    (d : EventDefinition) (c : Client) (hd : GM.Events.Load e.Name = some d)
    (hw : d.Websocket = true) (hb : d.Broadcast = false)
    (hc : e.ClientId ≠ "") (hf : srv.Find e.ClientId = some c) :
    Effect.go (Task.sendWebsocketEvent e false) ∈ (GM.FireEvent e).trace ∧
    (GM.sendWebsocketEvent srv e false).trace =
      [Effect.find e.ClientId, Effect.send c.Send e] ∧
    (GM.sendWebsocketEvent srv e false).trace.count (Effect.send c.Send e) = 1 ∧
    (∀ ch e1, Effect.send ch e1 ∈ (GM.sendWebsocketEvent srv e false).trace →
      ch = c.Send ∧ e1 = e) ∧
    (∀ e1, Effect.broadcast e1 ∉ (GM.sendWebsocketEvent srv e false).trace) ∧
    (GM.sendWebsocketEvent srv e false).panicked = false := by
  have hgo : Effect.go (Task.sendWebsocketEvent e false) ∈ (GM.FireEvent e).trace := by
    rw [go_websocket_mem GM e d hd e false]
    exact ⟨hw, rfl, hb.symm⟩
  have ht : GM.sendWebsocketEvent srv e false =
      Exec.mk GM [Effect.find e.ClientId, Effect.send c.Send e] false := by
    simp [GameManager.sendWebsocketEvent, hc, hf]
  rw [ht]
  refine ⟨hgo, rfl, ?_, ?_, ?_, rfl⟩
  · simp [List.count_cons]
  · intro ch e1 hmem
    simpa using hmem
  · intro e1
    simp

theorem sendWebsocketEvent_direct_delivered_witness :
    (NewGame.Event (EventDefinition.mk "whisper" false true false)).Events.Load
        (Event.mk "whisper" "B" "psst").Name
      = some (EventDefinition.mk "whisper" false true false) ∧
    ((NewGame.Event (EventDefinition.mk "whisper" false true false)).sendWebsocketEvent
        (Server.mk (fun id => if id = "B" then some (Client.mk "B" 2) else none))
        (Event.mk "whisper" "B" "psst") false).trace =
      [Effect.find "B", Effect.send 2 (Event.mk "whisper" "B" "psst")] :=
  ⟨by decide,
   (sendWebsocketEvent_direct_delivered
      (Server.mk (fun id => if id = "B" then some (Client.mk "B" 2) else none))
      (NewGame.Event (EventDefinition.mk "whisper" false true false))
      (Event.mk "whisper" "B" "psst") (EventDefinition.mk "whisper" false true false)
      (Client.mk "B" 2) (by decide) rfl rfl (by decide) (by decide)).2.1⟩

/-- C9: for an event `e` fired under a definition with `Websocket = true` and
`Broadcast = true`, `FireEvent` starts the external dispatch with flag `true`, and
that dispatch is one call `Broadcast(e)` and nothing else, whatever `e.ClientId` is and
whatever `Find` would answer: no `Find`, no send on a client channel. -/
theorem sendWebsocketEvent_broadcast (srv : Server) (GM : GameManager) (e : Event)
    (d : EventDefinition) (hd : GM.Events.Load e.Name = some d)
    (hw : d.Websocket = true) (hb : d.Broadcast = true) :
    Effect.go (Task.sendWebsocketEvent e true) ∈ (GM.FireEvent e).trace ∧
    (GM.sendWebsocketEvent srv e true).trace = [Effect.broadcast e] ∧
    (GM.sendWebsocketEvent srv e true).trace.count (Effect.broadcast e) = 1 ∧
    (∀ id, Effect.find id ∉ (GM.sendWebsocketEvent srv e true).trace) ∧
    (∀ ch e1, Effect.send ch e1 ∉ (GM.sendWebsocketEvent srv e true).trace) ∧
    (GM.sendWebsocketEvent srv e true).panicked = false := by
  have hgo : Effect.go (Task.sendWebsocketEvent e true) ∈ (GM.FireEvent e).trace := by
    rw [go_websocket_mem GM e d hd e true]
    exact ⟨hw, rfl, hb.symm⟩
  refine ⟨hgo, ?_⟩
  simp [GameManager.sendWebsocketEvent]

theorem sendWebsocketEvent_broadcast_witness :
    (NewGame.Event (EventDefinition.mk "chat" true true true)).Events.Load
        (Event.mk "chat" "nobody" "hi").Name
      = some (EventDefinition.mk "chat" true true true) ∧
    ((NewGame.Event (EventDefinition.mk "chat" true true true)).sendWebsocketEvent
        (Server.mk (fun _ => none)) (Event.mk "chat" "nobody" "hi") true).trace =
      [Effect.broadcast (Event.mk "chat" "nobody" "hi")] :=
  ⟨by decide,
   (sendWebsocketEvent_broadcast (Server.mk (fun _ => none))
      (NewGame.Event (EventDefinition.mk "chat" true true true))
      (Event.mk "chat" "nobody" "hi") (EventDefinition.mk "chat" true true true)
      (by decide) rfl rfl).2.1⟩

/-- C10: for an event `e` whose name has a definition with `Internal = true` and no
subscriber list stored, `FireEvent` returns normally having started the internal
dispatch, and that dispatch calls no handler, logs the one warning about missing
subscribers and returns normally, the registries unchanged. -/
theorem sendInternalEvent_no_subscribers (cb : Callbacks) (GM : GameManager) (e : Event)
    (d : EventDefinition) (hd : GM.Events.Load e.Name = some d)
    (hi : d.Internal = true) (hs : GM.Subscribers.Load e.Name = none) :
    (GM.FireEvent e).panicked = false ∧
    Effect.go (Task.sendInternalEvent e) ∈ (GM.FireEvent e).trace ∧
    GM.sendInternalEvent cb e =
      { gm := GM
        trace := [Effect.log Level.warning "Event called with no active subscribers: %s"
                    (Arg.str e.Name)]
        panicked := false } ∧
    invoked (GM.sendInternalEvent cb e).trace = [] := by
  refine ⟨?_, ?_, ?_, ?_⟩
  · rw [fireEvent_defined GM e d hd]
  · rw [go_internal_mem GM e d hd e]
    exact ⟨hi, rfl⟩
  · simp [GameManager.sendInternalEvent, hs]
  · simp [GameManager.sendInternalEvent, hs, invoked]

theorem sendInternalEvent_no_subscribers_witness :
    (NewGame.Event (EventDefinition.mk "tick" true false false)).Events.Load
        (Event.mk "tick" "" "").Name = some (EventDefinition.mk "tick" true false false) ∧
    (NewGame.Event (EventDefinition.mk "tick" true false false)).Subscribers.Load
        (Event.mk "tick" "" "").Name = none ∧
    invoked ((NewGame.Event (EventDefinition.mk "tick" true false false)).sendInternalEvent
        (Callbacks.mk (fun _ _ g => Called.mk g false) (fun _ g => Called.mk g false)
      (fun _ g => Called.mk g false)) (Event.mk "tick" "" "")).trace
      = [] :=
  ⟨by decide, by decide,
   (sendInternalEvent_no_subscribers (Callbacks.mk (fun _ _ g => Called.mk g false) (fun _ g => Called.mk g false)
      (fun _ g => Called.mk g false))
      (NewGame.Event (EventDefinition.mk "tick" true false false)) (Event.mk "tick" "" "")
      (EventDefinition.mk "tick" true false false) (by decide) rfl (by decide)).2.2.2⟩

theorem addRange_returns (cb : Callbacks)
    (hset : ∀ v g, (cb.SetGM v g).panicked = false ∧
      (cb.SetGM v g).gm.Components = g.Components)
    (comps : List (String × ComponentInterface)) :
    ∀ (gm : GameManager) (tr : List Effect),
      (addRange cb comps gm tr).panicked = false ∧
      (addRange cb comps gm tr).trace = tr ++ comps.flatMap (fun kv =>
        [Effect.log Level.debug "Loading component %s" (Arg.str kv.1),
         Effect.setGM kv.2]) ∧
      (addRange cb comps gm tr).gm.Components
        = comps.foldl (fun m kv => m.Store kv.1 kv.2) gm.Components := by
  induction comps with
  | nil => intro gm tr; simp [addRange]
  | cons p rest ih =>
    intro gm tr
    obtain ⟨k, v⟩ := p
    have h := ih { (cb.SetGM v gm).gm with
                   Components := (cb.SetGM v gm).gm.Components.Store k v }
      (tr ++ [Effect.log Level.debug "Loading component %s" (Arg.str k), Effect.setGM v])
    simpa [addRange, (hset v gm).1, (hset v gm).2] using h

theorem addComponentsSeq_returns (cb : Callbacks)
    (hset : ∀ v g, (cb.SetGM v g).panicked = false ∧
      (cb.SetGM v g).gm.Components = g.Components)
    (calls : List (List (String × ComponentInterface))) :
    ∀ (gm : GameManager) (tr : List Effect),
      (addComponentsSeq cb calls gm tr).panicked = false ∧
      (addComponentsSeq cb calls gm tr).trace = tr ++ calls.flatten.flatMap (fun kv =>
        [Effect.log Level.debug "Loading component %s" (Arg.str kv.1),
         Effect.setGM kv.2]) ∧
      (addComponentsSeq cb calls gm tr).gm.Components
        = calls.flatten.foldl (fun m kv => m.Store kv.1 kv.2) gm.Components := by
  induction calls with
  | nil => intro gm tr; simp [addComponentsSeq]
  | cons c rest ih =>
    intro gm tr
    have hc := addRange_returns cb hset c gm []
    have h := ih (gm.AddComponents cb c).gm (tr ++ (gm.AddComponents cb c).trace)
    have hp : (gm.AddComponents cb c).panicked = false := hc.1
    have ht : (gm.AddComponents cb c).trace = c.flatMap (fun kv =>
        [Effect.log Level.debug "Loading component %s" (Arg.str kv.1),
         Effect.setGM kv.2]) := by simpa using hc.2.1
    have hg : (gm.AddComponents cb c).gm.Components
        = c.foldl (fun m kv => m.Store kv.1 kv.2) gm.Components := hc.2.2
    simp only [addComponentsSeq, hp, Bool.false_eq_true, if_false]
    refine ⟨h.1, ?_, ?_⟩
    · rw [h.2.1, ht]
      simp [List.flatMap_append]
    · rw [h.2.2, hg]
      simp [List.foldl_append]

theorem registerRange_returns (cb : Callbacks)
    (hreg : ∀ v g, (cb.Register v g).panicked = false ∧
      (cb.Register v g).gm.Components = g.Components)
    (order : List String) :
    ∀ (gm : GameManager) (tr : List Effect),
      (registerRange cb order gm tr).panicked = false ∧
      (registerRange cb order gm tr).gm.Components = gm.Components ∧
      (registerRange cb order gm tr).trace = tr ++ order.flatMap (fun k =>
        match gm.Components.Load k with
        | some v => [Effect.register v,
                     Effect.log Level.debug "Registered component %s" (Arg.str k)]
        | none => []) := by
  induction order with
  | nil => intro gm tr; simp [registerRange]
  | cons k rest ih =>
    intro gm tr
    cases hl : gm.Components.Load k with
    | none =>
      have h := ih gm tr
      simpa [registerRange, hl] using h
    | some v =>
      have h := ih (cb.Register v gm).gm
        (tr ++ [Effect.register v,
                Effect.log Level.debug "Registered component %s" (Arg.str k)])
      rw [(hreg v gm).2] at h
      simpa [registerRange, hl, (hreg v gm).1, (hreg v gm).2] using h

theorem count_register (m : sync.Map ComponentInterface) (C : ComponentInterface)
    (order : List String) :
    (order.flatMap (fun k =>
        match m.Load k with
        | some v => [Effect.register v,
                     Effect.log Level.debug "Registered component %s" (Arg.str k)]
        | none => [])).count (Effect.register C)
      = (order.filter (fun k => decide (m.Load k = some C))).length := by
  induction order with
  | nil => rfl
  | cons k rest ih =>
    cases hl : m.Load k with
    | none => simp [List.flatMap_cons, List.filter_cons, hl, ih]
    | some v =>
      by_cases hv : v = C
      · simp [List.flatMap_cons, List.count_cons, List.filter_cons, hl, hv, ih]
      · simp [List.flatMap_cons, List.count_cons, List.filter_cons, hl, hv, ih]

theorem stored_names_length (m : sync.Map ComponentInterface) (C : ComponentInterface)
    (order : List String) (hn : (m.entries.map Prod.fst).Nodup)
    (ho : m.RangeOrder order) :
    (order.filter (fun k => decide (m.Load k = some C))).length
      = (m.entries.filter (fun kv => decide (kv.2 = C))).length := by
  have h1 : (order.filter (fun k => decide (m.Load k = some C))).Nodup := ho.1.filter _
  have h2 : ((m.entries.filter (fun kv => decide (kv.2 = C))).map Prod.fst).Nodup :=
    hn.sublist ((List.filter_sublist _).map _)
  have hperm : (order.filter (fun k => decide (m.Load k = some C))).Perm
      ((m.entries.filter (fun kv => decide (kv.2 = C))).map Prod.fst) := by
    rw [List.perm_ext_iff_of_nodup h1 h2]
    intro k
    constructor
    · intro hk
      have hk2 := (List.mem_filter.1 hk).2
      have hl : m.Load k = some C := by simpa using hk2
      have hmem : (k, C) ∈ m.entries := (sync.Map.mem_iff_lookup _ hn k C).2 hl
      exact List.mem_map.2 ⟨(k, C), List.mem_filter.2 ⟨hmem, by simp⟩, rfl⟩
    · intro hk
      rcases List.mem_map.1 hk with ⟨p, hp, hpk⟩
      obtain ⟨a, b⟩ := p
      have hp1 := (List.mem_filter.1 hp).1
      have hp2 : b = C := by simpa using (List.mem_filter.1 hp).2
      subst hp2
      simp only at hpk
      subst hpk
      have hl : m.Load a = some b := (sync.Map.mem_iff_lookup _ hn a b).1 hp1
      exact List.mem_filter.2 ⟨ho.2 (a, b) hp1, by simpa using hl⟩
  rw [hperm.length_eq, List.length_map]

/-- C6 (as the code has it): take any sequence of `AddComponents` calls on a new
manager in which every `SetGM` returns and leaves the `Components` registry alone.
The calls return, every component passed has received the manager through `SetGM`, and
the store holds one entry per name, the component last added under that name.  When
every `Register()` returns and leaves the `Components` registry alone too, one run of
`RegisterComponents()`, whatever the order in which `Range` visits the stored names,
returns and calls `Register()` once per stored name, on the component stored under it;
so a component is registered as many times as there are names it is stored under. -/
theorem registerComponents_after_adds (cb : Callbacks)
    (calls : List (List (String × ComponentInterface))) (order : List String)
    (hset : ∀ v g, (cb.SetGM v g).panicked = false ∧
      (cb.SetGM v g).gm.Components = g.Components)
    (hreg : ∀ v g, (cb.Register v g).panicked = false ∧
      (cb.Register v g).gm.Components = g.Components)
    (horder : (addComponentsSeq cb calls NewGame []).gm.Components.RangeOrder order) :
    (addComponentsSeq cb calls NewGame []).panicked = false ∧
    (∀ components ∈ calls, ∀ kv ∈ components,
      Effect.setGM kv.2 ∈ (addComponentsSeq cb calls NewGame []).trace) ∧
    ((addComponentsSeq cb calls NewGame []).gm.Components.entries.map Prod.fst).Nodup ∧
    (∀ k, (addComponentsSeq cb calls NewGame []).gm.Components.Load k
      = calls.flatten.reverse.lookup k) ∧
    (∀ k C, (k, C) ∈ (addComponentsSeq cb calls NewGame []).gm.Components.entries ↔
      (addComponentsSeq cb calls NewGame []).gm.Components.Load k = some C) ∧
    ((addComponentsSeq cb calls NewGame []).gm.RegisterComponents cb order).panicked
      = false ∧
    ((addComponentsSeq cb calls NewGame []).gm.RegisterComponents cb order).trace
      = order.flatMap (fun k =>
          match (addComponentsSeq cb calls NewGame []).gm.Components.Load k with
          | some v => [Effect.register v,
                       Effect.log Level.debug "Registered component %s" (Arg.str k)]
          | none => []) ∧
    (∀ C, ((addComponentsSeq cb calls NewGame []).gm.RegisterComponents cb order).trace.count
        (Effect.register C)
      = ((addComponentsSeq cb calls NewGame []).gm.Components.entries.filter
          (fun kv => decide (kv.2 = C))).length) := by
  have hadd := addComponentsSeq_returns cb hset calls NewGame []
  have hnodup :
      ((addComponentsSeq cb calls NewGame []).gm.Components.entries.map Prod.fst).Nodup := by
    rw [hadd.2.2]
    exact sync.Map.keys_nodup_foldl_Store _ _ (by simp [NewGame, sync.Map.empty])
  have hrun := registerRange_returns cb hreg order
    (addComponentsSeq cb calls NewGame []).gm []
  have htrace :
      ((addComponentsSeq cb calls NewGame []).gm.RegisterComponents cb order).trace
      = order.flatMap (fun k =>
          match (addComponentsSeq cb calls NewGame []).gm.Components.Load k with
          | some v => [Effect.register v,
                       Effect.log Level.debug "Registered component %s" (Arg.str k)]
          | none => []) := by
    simpa [GameManager.RegisterComponents] using hrun.2.2
  refine ⟨hadd.1, ?_, hnodup, ?_, ?_, hrun.1, htrace, ?_⟩
  · intro components hc kv hkv
    rw [hadd.2.1]
    simp only [List.nil_append, List.mem_flatMap, List.mem_flatten]
    exact ⟨kv, ⟨components, hc, hkv⟩, by simp⟩
  · intro k
    rw [hadd.2.2, sync.Map.Load_foldl_Store]
    simp [NewGame, sync.Map.empty, sync.Map.Load]
  · intro k C
    exact sync.Map.mem_iff_lookup _ hnodup k C
  · intro C
    rw [htrace, count_register, stored_names_length _ C order hnodup horder]

theorem registerComponents_after_adds_witness :
    (addComponentsSeq (Callbacks.mk (fun _ _ g => Called.mk g false) (fun _ g => Called.mk g false)
      (fun _ g => Called.mk g false)) [[("a", 1), ("b", 2)], [("a", 3)]] NewGame
        []).gm.Components.RangeOrder ["a", "b"] ∧
    ((addComponentsSeq (Callbacks.mk (fun _ _ g => Called.mk g false) (fun _ g => Called.mk g false)
      (fun _ g => Called.mk g false)) [[("a", 1), ("b", 2)], [("a", 3)]] NewGame
        []).gm.RegisterComponents (Callbacks.mk (fun _ _ g => Called.mk g false) (fun _ g => Called.mk g false)
      (fun _ g => Called.mk g false)) ["a", "b"]).trace
      = [Effect.register 3, Effect.log Level.debug "Registered component %s" (Arg.str "a"),
         Effect.register 2, Effect.log Level.debug "Registered component %s" (Arg.str "b")] :=
  ⟨by decide,
   (registerComponents_after_adds (Callbacks.mk (fun _ _ g => Called.mk g false) (fun _ g => Called.mk g false)
      (fun _ g => Called.mk g false)) [[("a", 1), ("b", 2)], [("a", 3)]] ["a", "b"]
      (fun _ _ => ⟨rfl, rfl⟩) (fun _ _ => ⟨rfl, rfl⟩) (by decide)).2.2.2.2.2.2.1⟩

/-- C6 (the claim as stated fails): component `1` is passed to `AddComponents` under
the name "a" and receives the manager, then component `2` is passed under the same
name; every `SetGM` and `Register()` returns, "a" is the one name `Range` has to
visit, and `RegisterComponents()` never calls `Register()` on component `1`.  Two more
ways: components `1` and `2` are passed under "a" and "b" and the `Register()` of `1`
stores a component `9` under "b", so that `Range`, visiting "a" then "b", registers `9`
and never `2`; and when the `SetGM` of `1` panics, `AddComponents` ends in the panic and
component `2`, passed after it, never receives the manager. -/
theorem registerComponents_overwritten_not_registered :
    Effect.setGM 1 ∈ (addComponentsSeq (Callbacks.mk (fun _ _ g => Called.mk g false) (fun _ g => Called.mk g false)
      (fun _ g => Called.mk g false)) [[("a", 1)], [("a", 2)]] NewGame []).trace ∧
    (addComponentsSeq (Callbacks.mk (fun _ _ g => Called.mk g false) (fun _ g => Called.mk g false)
      (fun _ g => Called.mk g false)) [[("a", 1)], [("a", 2)]] NewGame
        []).gm.Components.RangeOrder ["a"] ∧
    ((addComponentsSeq (Callbacks.mk (fun _ _ g => Called.mk g false) (fun _ g => Called.mk g false)
      (fun _ g => Called.mk g false)) [[("a", 1)], [("a", 2)]] NewGame
        []).gm.RegisterComponents (Callbacks.mk (fun _ _ g => Called.mk g false) (fun _ g => Called.mk g false)
      (fun _ g => Called.mk g false)) ["a"]).trace
      = [Effect.register 2,
         Effect.log Level.debug "Registered component %s" (Arg.str "a")] ∧
    ((addComponentsSeq (Callbacks.mk (fun _ _ g => Called.mk g false) (fun _ g => Called.mk g false)
      (fun _ g => Called.mk g false)) [[("a", 1)], [("a", 2)]] NewGame
        []).gm.RegisterComponents (Callbacks.mk (fun _ _ g => Called.mk g false) (fun _ g => Called.mk g false)
      (fun _ g => Called.mk g false)) ["a"]).trace.count (Effect.register 1)
      = 0 ∧
    ((addComponentsSeq (Callbacks.mk (fun _ _ g => Called.mk g false) (fun _ g => Called.mk g false)
      (fun _ g => Called.mk g false)) [[("a", 1), ("b", 2)]] NewGame []).gm.RegisterComponents
        (Callbacks.mk (fun _ _ g => Called.mk g false)
          (fun v g =>
            Called.mk (if v = 1 then { g with Components := g.Components.Store "b" 9 } else g)
              false)
          (fun _ g => Called.mk g false)) ["a", "b"]).trace
      = [Effect.register 1, Effect.log Level.debug "Registered component %s" (Arg.str "a"),
         Effect.register 9, Effect.log Level.debug "Registered component %s" (Arg.str "b")] ∧
    (addComponentsSeq (Callbacks.mk (fun _ _ g => Called.mk g false) (fun _ g => Called.mk g false)
          (fun v g => Called.mk g (v == 1))) [[("a", 1), ("b", 2)]] NewGame []).panicked = true ∧
    Effect.setGM 2 ∉ (addComponentsSeq (Callbacks.mk (fun _ _ g => Called.mk g false) (fun _ g => Called.mk g false)
          (fun v g => Called.mk g (v == 1))) [[("a", 1), ("b", 2)]] NewGame []).trace := by
  decide

/-- C11: after `RegisterHandler(n, h)` the list stored for `n` is the list stored
before (empty if there was none) with `h` appended at the end; the list stored for any
other name is what it was, and the `Events` and `Components` registries are what they
were. -/
theorem registerHandler_frame (GM : GameManager) (n : String) (h : EventHandler) :
    (GM.RegisterHandler n h).Subscribers.Load n
      = some ((GM.Subscribers.Load n).getD [] ++ [h]) ∧
    (∀ m, m ≠ n → (GM.RegisterHandler n h).Subscribers.Load m = GM.Subscribers.Load m) ∧
    (GM.RegisterHandler n h).Events = GM.Events ∧
    (GM.RegisterHandler n h).Components = GM.Components := by
  refine ⟨load_registerHandler GM n h, ?_, rfl, rfl⟩
  intro m hm
  simp [GameManager.RegisterHandler, sync.Map.Load_Store_of_ne _ n m _ hm]

theorem registerHandler_frame_witness :
    ((NewGame.RegisterHandler "chat" 4).RegisterHandler "chat" 5).Subscribers.Load "chat"
      = some (((NewGame.RegisterHandler "chat" 4).Subscribers.Load "chat").getD [] ++ [5]) ∧
    ((NewGame.RegisterHandler "chat" 4).RegisterHandler "tick" 5).Subscribers.Load "chat"
      = (NewGame.RegisterHandler "chat" 4).Subscribers.Load "chat" :=
  ⟨(registerHandler_frame (NewGame.RegisterHandler "chat" 4) "chat" 5).1,
   (registerHandler_frame (NewGame.RegisterHandler "chat" 4) "tick" 5).2.1 "chat"
     (by decide)⟩

/-- C13: after `Event(d)` the definition loaded under `d.Name` is `d`, whatever was
stored under that name before (the last write wins); the definition stored under any
other name is what it was, and the `Subscribers` and `Components` registries are what
they were. -/
theorem event_frame (GM : GameManager) (d : EventDefinition) :
    (GM.Event d).Events.Load d.Name = some d ∧
    (∀ d0 : EventDefinition, d0.Name = d.Name →
      ((GM.Event d0).Event d).Events.Load d.Name = some d) ∧
    (∀ m, m ≠ d.Name → (GM.Event d).Events.Load m = GM.Events.Load m) ∧
    (GM.Event d).Subscribers = GM.Subscribers ∧
    (GM.Event d).Components = GM.Components := by
  refine ⟨?_, ?_, ?_, rfl, rfl⟩
  · simp [GameManager.Event, sync.Map.Load_Store_self]
  · intro d0 _
    simp [GameManager.Event, sync.Map.Load_Store_self]
  · intro m hm
    simp [GameManager.Event, sync.Map.Load_Store_of_ne _ d.Name m _ hm]

theorem event_frame_witness :
    ((NewGame.Event (EventDefinition.mk "chat" true false false)).Event
        (EventDefinition.mk "chat" false true true)).Events.Load "chat"
      = some (EventDefinition.mk "chat" false true true) ∧
    ((NewGame.Event (EventDefinition.mk "chat" true false false)).Event
        (EventDefinition.mk "tick" false true true)).Events.Load "chat"
      = (NewGame.Event (EventDefinition.mk "chat" true false false)).Events.Load "chat" :=
  ⟨(event_frame (NewGame.Event (EventDefinition.mk "chat" true false false))
      (EventDefinition.mk "chat" false true true)).1,
   (event_frame (NewGame.Event (EventDefinition.mk "chat" true false false))
      (EventDefinition.mk "tick" false true true)).2.2.1 "chat" (by decide)⟩

theorem registerRange_panics (cb : Callbacks) (k : String) (v : ComponentInterface)
    (hbad : ∀ g, (cb.Register v g).panicked = true)
    (hcomp : ∀ u g, (cb.Register u g).panicked = false →
      (cb.Register u g).gm.Components = g.Components)
    (order : List String) :
    ∀ (gm : GameManager) (tr : List Effect), k ∈ order → gm.Components.Load k = some v →
      (registerRange cb order gm tr).panicked = true := by
  induction order with
  | nil => intro gm tr hk; cases hk
  | cons a rest ih =>
    intro gm tr hk hl
    cases hla : gm.Components.Load a with
    | none =>
      have hne : k ≠ a := by
        intro h; rw [h, hla] at hl; cases hl
      have hk2 : k ∈ rest := by
        rcases List.mem_cons.1 hk with h | h
        · exact absurd h hne
        · exact h
      simpa [registerRange, hla] using ih gm tr hk2 hl
    | some u =>
      by_cases hp : (cb.Register u gm).panicked = true
      · simp [registerRange, hla, hp]
      · have hp2 : (cb.Register u gm).panicked = false := by simpa using hp
        have hne : k ≠ a := by
          intro h
          rw [h, hla] at hl
          injection hl with huv
          rw [huv, hbad gm] at hp2
          cases hp2
        have hk2 : k ∈ rest := by
          rcases List.mem_cons.1 hk with h | h
          · exact absurd h hne
          · exact h
        have hl2 : (cb.Register u gm).gm.Components.Load k = some v := by
          rw [hcomp u gm hp2]; exact hl
        simpa [registerRange, hla, hp2] using ih _ _ hk2 hl2

theorem registerRange_split (cb : Callbacks) (order : List String) :
    ∀ (gm : GameManager) (tr : List Effect),
      (registerRange cb order gm tr).panicked = true →
      ∃ pre post kf vf, order = pre ++ kf :: post ∧
        (registerRange cb pre gm tr).panicked = false ∧
        (registerRange cb pre gm tr).gm.Components.Load kf = some vf ∧
        (cb.Register vf (registerRange cb pre gm tr).gm).panicked = true ∧
        registerRange cb order gm tr =
          { gm := (cb.Register vf (registerRange cb pre gm tr).gm).gm
            trace := (registerRange cb pre gm tr).trace ++ [Effect.register vf]
            panicked := true } := by
  induction order with
  | nil => intro gm tr h; simp [registerRange] at h
  | cons a rest ih =>
    intro gm tr h
    cases hla : gm.Components.Load a with
    | none =>
      have h2 : (registerRange cb rest gm tr).panicked = true := by
        simpa [registerRange, hla] using h
      obtain ⟨pre, post, kf, vf, ho, h3, h4, h5, h6⟩ := ih gm tr h2
      refine ⟨a :: pre, post, kf, vf, by simp [ho], ?_, ?_, ?_, ?_⟩
      · simpa [registerRange, hla] using h3
      · simpa [registerRange, hla] using h4
      · simpa [registerRange, hla] using h5
      · simpa [registerRange, hla] using h6
    | some u =>
      by_cases hp : (cb.Register u gm).panicked = true
      · refine ⟨[], rest, a, u, rfl, ?_, ?_, ?_, ?_⟩
        · simp [registerRange]
        · simpa [registerRange] using hla
        · simpa [registerRange] using hp
        · simp [registerRange, hla, hp]
      · have hp2 : (cb.Register u gm).panicked = false := by simpa using hp
        have h2 : (registerRange cb rest (cb.Register u gm).gm
            (tr ++ [Effect.register u,
              Effect.log Level.debug "Registered component %s" (Arg.str a)])).panicked
            = true := by
          simpa [registerRange, hla, hp2] using h
        obtain ⟨pre, post, kf, vf, ho, h3, h4, h5, h6⟩ := ih _ _ h2
        refine ⟨a :: pre, post, kf, vf, by simp [ho], ?_, ?_, ?_, ?_⟩
        · simpa [registerRange, hla, hp2] using h3
        · simpa [registerRange, hla, hp2] using h4
        · simpa [registerRange, hla, hp2] using h5
        · simpa [registerRange, hla, hp2] using h6

/-- C14 (as the code has it): let the component `v`, whose `Register()` panics, be
stored under a name that `Range` visits, and let every `Register()` that returns leave
the `Components` registry alone.  Then `RegisterComponents()` ends in a panic, whatever
the visiting order.  It stops at the first name, `kf`, whose component `vf` panics: the
registries are left as the registrations of the names visited before `kf`, followed by
the failing call, leave them (nothing is rolled back), the calls made are those of the
names before `kf` and the failing one, and no `Register()` is called for the names
after `kf`. -/
theorem registerComponents_panic_aborts (cb : Callbacks) (GM : GameManager)
    (order : List String) (k : String) (v : ComponentInterface)
    (hk : k ∈ order) (hl : GM.Components.Load k = some v)
    (hbad : ∀ g, (cb.Register v g).panicked = true)
    (hcomp : ∀ u g, (cb.Register u g).panicked = false →
      (cb.Register u g).gm.Components = g.Components) :
    (GM.RegisterComponents cb order).panicked = true ∧
    ∃ pre post kf vf, order = pre ++ kf :: post ∧
      (GM.RegisterComponents cb pre).panicked = false ∧
      (GM.RegisterComponents cb pre).gm.Components.Load kf = some vf ∧
      (cb.Register vf (GM.RegisterComponents cb pre).gm).panicked = true ∧
      GM.RegisterComponents cb order =
        { gm := (cb.Register vf (GM.RegisterComponents cb pre).gm).gm
          trace := (GM.RegisterComponents cb pre).trace ++ [Effect.register vf]
          panicked := true } := by
  have hp : (GM.RegisterComponents cb order).panicked = true :=
    registerRange_panics cb k v hbad hcomp order GM [] hk hl
  exact ⟨hp, registerRange_split cb order GM [] hp⟩

theorem registerComponents_panic_aborts_witness :
    (addComponentsSeq (Callbacks.mk (fun _ _ g => Called.mk g false) (fun _ g => Called.mk g false)
      (fun _ g => Called.mk g false)) [[("a", 1)], [("b", 2)], [("c", 3)]] NewGame
        []).gm.Components.Load "b" = some 2 ∧
    ((addComponentsSeq (Callbacks.mk (fun _ _ g => Called.mk g false) (fun _ g => Called.mk g false)
      (fun _ g => Called.mk g false)) [[("a", 1)], [("b", 2)], [("c", 3)]] NewGame
        []).gm.RegisterComponents (Callbacks.mk (fun _ _ g => Called.mk g false) (fun v g => Called.mk g (v == 2))
      (fun _ g => Called.mk g false)) ["c", "b", "a"]).panicked = true :=
  ⟨by decide,
   (registerComponents_panic_aborts (Callbacks.mk (fun _ _ g => Called.mk g false) (fun v g => Called.mk g (v == 2))
      (fun _ g => Called.mk g false))
      (addComponentsSeq (Callbacks.mk (fun _ _ g => Called.mk g false) (fun _ g => Called.mk g false)
      (fun _ g => Called.mk g false)) [[("a", 1)], [("b", 2)], [("c", 3)]] NewGame []).gm
      ["c", "b", "a"] "b" 2 (by decide) (by decide) (fun _ => rfl)
      (fun _ _ _ => rfl)).1⟩

/-- C14 (the claim as stated fails): components `1` and `2` are stored under "a" and
"b", the `Register()` of `2` panics and that of `1` returns.  When `Range` visits "b"
first, `RegisterComponents()` ends in the panic and never calls `Register()` on
component `1`; when it visits "a" first, component `1` is registered and the call
still ends in the panic. -/
theorem registerComponents_panic_not_contained :
    ((addComponentsSeq (Callbacks.mk (fun _ _ g => Called.mk g false) (fun _ g => Called.mk g false)
      (fun _ g => Called.mk g false)) [[("a", 1), ("b", 2)]] NewGame []).gm.RegisterComponents
        (Callbacks.mk (fun _ _ g => Called.mk g false) (fun v g => Called.mk g (v == 2))
      (fun _ g => Called.mk g false)) ["b", "a"]).panicked = true ∧
    ((addComponentsSeq (Callbacks.mk (fun _ _ g => Called.mk g false) (fun _ g => Called.mk g false)
      (fun _ g => Called.mk g false)) [[("a", 1), ("b", 2)]] NewGame []).gm.RegisterComponents
        (Callbacks.mk (fun _ _ g => Called.mk g false) (fun v g => Called.mk g (v == 2))
      (fun _ g => Called.mk g false)) ["b", "a"]).trace = [Effect.register 2] ∧
    ((addComponentsSeq (Callbacks.mk (fun _ _ g => Called.mk g false) (fun _ g => Called.mk g false)
      (fun _ g => Called.mk g false)) [[("a", 1), ("b", 2)]] NewGame []).gm.RegisterComponents
        (Callbacks.mk (fun _ _ g => Called.mk g false) (fun v g => Called.mk g (v == 2))
      (fun _ g => Called.mk g false)) ["b", "a"]).trace.count (Effect.register 1) = 0 ∧
    ((addComponentsSeq (Callbacks.mk (fun _ _ g => Called.mk g false) (fun _ g => Called.mk g false)
      (fun _ g => Called.mk g false)) [[("a", 1), ("b", 2)]] NewGame []).gm.RegisterComponents
        (Callbacks.mk (fun _ _ g => Called.mk g false) (fun v g => Called.mk g (v == 2))
      (fun _ g => Called.mk g false)) ["a", "b"]).panicked = true ∧
    ((addComponentsSeq (Callbacks.mk (fun _ _ g => Called.mk g false) (fun _ g => Called.mk g false)
      (fun _ g => Called.mk g false)) [[("a", 1), ("b", 2)]] NewGame []).gm.RegisterComponents
        (Callbacks.mk (fun _ _ g => Called.mk g false) (fun v g => Called.mk g (v == 2))
      (fun _ g => Called.mk g false)) ["a", "b"]).trace
      = [Effect.register 1, Effect.log Level.debug "Registered component %s" (Arg.str "a"),
         Effect.register 2] := by
  decide

theorem invokeRange_extends (cb : Callbacks) (e : Event) (subs : List EventHandler)
    (hret : ∀ t g, (cb.handler t e g).panicked = false)
    (hmono : ∀ t ∈ subs, ∀ (g : GameManager) (prior : List EventHandler),
      g.Subscribers.Load e.Name = some prior →
      ∃ added, (cb.handler t e g).gm.Subscribers.Load e.Name = some (prior ++ added)) :
    ∀ (gm : GameManager) (tr : List Effect) (prior : List EventHandler),
      gm.Subscribers.Load e.Name = some prior →
      ∃ added, (invokeRange cb e subs gm tr).gm.Subscribers.Load e.Name
          = some (prior ++ added) ∧
        ∀ t ∈ subs, ∀ h1,
          (∀ g, ∃ l, (cb.handler t e g).gm.Subscribers.Load e.Name = some l ∧ h1 ∈ l) →
          h1 ∈ prior ++ added := by
  induction subs with
  | nil =>
    intro gm tr prior h
    exact ⟨[], by simpa [invokeRange] using h, fun t ht => by cases ht⟩
  | cons a rest ih =>
    intro gm tr prior h
    obtain ⟨adda, ha⟩ := hmono a (List.mem_cons_self _ _) gm prior h
    obtain ⟨added, h1, h2⟩ := ih (fun t ht g p hp => hmono t (List.mem_cons_of_mem _ ht) g p hp)
      (cb.handler a e gm).gm (tr ++ [Effect.invoke a e]) (prior ++ adda) ha
    refine ⟨adda ++ added, ?_, ?_⟩
    · simpa [invokeRange, hret a gm, List.append_assoc] using h1
    · intro t ht h0 hreg
      rcases List.mem_cons.1 ht with hta | htr
      · subst hta
        obtain ⟨l, hl, hmem⟩ := hreg gm
        rw [ha] at hl
        injection hl with hl
        rw [← hl] at hmem
        rw [← List.append_assoc]
        exact List.mem_append_left _ hmem
      · have := h2 t htr h0 hreg
        rw [← List.append_assoc]
        exact this

/-- C15 (as the code has it): let every call of a handler with `e` return.  An
internal dispatch that finds the list `subs` stored for the name of `e` calls exactly
the handlers of `subs`, in order, whatever those handlers do to the registries while
it runs: a handler registered meanwhile adds no call to it.  The next dispatch of the
name calls exactly the list stored when the first has ended; and when the handlers of
`subs` only ever extend the stored list (as calls of `RegisterHandler` do), a handler
that one of them registers while the first dispatch runs is called by the next. -/
theorem sendInternalEvent_snapshot (cb : Callbacks) (GM : GameManager) (e : Event)
    (subs : List EventHandler)
    (hl : GM.Subscribers.Load e.Name = some subs)
    (hret : ∀ t g, (cb.handler t e g).panicked = false) :
    (GM.sendInternalEvent cb e).trace = subs.map (fun h => Effect.invoke h e) ∧
    (GM.sendInternalEvent cb e).panicked = false ∧
    (∀ h1, h1 ∉ subs → Effect.invoke h1 e ∉ (GM.sendInternalEvent cb e).trace) ∧
    (∀ stored, (GM.sendInternalEvent cb e).gm.Subscribers.Load e.Name = some stored →
      ((GM.sendInternalEvent cb e).gm.sendInternalEvent cb e).trace
        = stored.map (fun h => Effect.invoke h e) ∧
      ((GM.sendInternalEvent cb e).gm.sendInternalEvent cb e).panicked = false) ∧
    ((∀ t ∈ subs, ∀ (g : GameManager) (prior : List EventHandler),
        g.Subscribers.Load e.Name = some prior →
        ∃ added, (cb.handler t e g).gm.Subscribers.Load e.Name = some (prior ++ added)) →
      ∀ t ∈ subs, ∀ h1,
        (∀ g, ∃ l, (cb.handler t e g).gm.Subscribers.Load e.Name = some l ∧ h1 ∈ l) →
        Effect.invoke h1 e ∈
          ((GM.sendInternalEvent cb e).gm.sendInternalEvent cb e).trace) := by
  have h1 := sendInternal_of_load cb GM e subs hl (fun t _ g => hret t g)
  have hnext : ∀ stored,
      (GM.sendInternalEvent cb e).gm.Subscribers.Load e.Name = some stored →
      ((GM.sendInternalEvent cb e).gm.sendInternalEvent cb e).trace
        = stored.map (fun h => Effect.invoke h e) ∧
      ((GM.sendInternalEvent cb e).gm.sendInternalEvent cb e).panicked = false :=
    fun stored hs => sendInternal_of_load cb _ e stored hs (fun t _ g => hret t g)
  refine ⟨h1.1, h1.2, ?_, hnext, ?_⟩
  · intro h0 hnot hmem
    rw [h1.1] at hmem
    rcases List.mem_map.1 hmem with ⟨a, ha, hae⟩
    injection hae with hsub _
    exact hnot (hsub ▸ ha)
  · intro hmono t ht h0 hreg
    obtain ⟨added, hfin, hin⟩ := invokeRange_extends cb e subs hret hmono GM [] subs hl
    have hfin2 : (GM.sendInternalEvent cb e).gm.Subscribers.Load e.Name
        = some (subs ++ added) := by
      simpa [GameManager.sendInternalEvent, hl] using hfin
    rw [(hnext _ hfin2).1]
    exact List.mem_map.2 ⟨h0, hin t ht h0 hreg, rfl⟩

theorem sendInternalEvent_snapshot_witness :
    (registerHandlers NewGame "chat" [1, 2]).Subscribers.Load (Event.mk "chat" "" "hi").Name
      = some [1, 2] ∧
    ((registerHandlers NewGame "chat" [1, 2]).sendInternalEvent
        (Callbacks.mk
          (fun t ev g => Called.mk (if t = 1 then g.RegisterHandler ev.Name 9 else g) false)
          (fun _ g => Called.mk g false) (fun _ g => Called.mk g false))
        (Event.mk "chat" "" "hi")).trace
      = [Effect.invoke 1 (Event.mk "chat" "" "hi"), Effect.invoke 2 (Event.mk "chat" "" "hi")] ∧
    (((registerHandlers NewGame "chat" [1, 2]).sendInternalEvent
        (Callbacks.mk
          (fun t ev g => Called.mk (if t = 1 then g.RegisterHandler ev.Name 9 else g) false)
          (fun _ g => Called.mk g false) (fun _ g => Called.mk g false))
        (Event.mk "chat" "" "hi")).gm.sendInternalEvent
        (Callbacks.mk
          (fun t ev g => Called.mk (if t = 1 then g.RegisterHandler ev.Name 9 else g) false)
          (fun _ g => Called.mk g false) (fun _ g => Called.mk g false))
        (Event.mk "chat" "" "hi")).trace
      = [1, 2, 9].map (fun h => Effect.invoke h (Event.mk "chat" "" "hi")) :=
  have w := sendInternalEvent_snapshot
    (Callbacks.mk
          (fun t ev g => Called.mk (if t = 1 then g.RegisterHandler ev.Name 9 else g) false)
          (fun _ g => Called.mk g false) (fun _ g => Called.mk g false))
    (registerHandlers NewGame "chat" [1, 2]) (Event.mk "chat" "" "hi") [1, 2]
    (by decide) (fun _ _ => rfl)
  ⟨by decide, w.1, (w.2.2.2.1 [1, 2, 9] (by decide)).1⟩

/-- C15 (the claim as stated fails): the list loaded for "chat" is `[1, 2]`; handler
`1` registers handler `9` for "chat" and then panics.  The dispatch calls handler `1`
and ends in the panic: handler `2`, which is in the list loaded at the start, is not
called. -/
theorem sendInternalEvent_panic_cuts_snapshot :
    (registerHandlers NewGame "chat" [1, 2]).Subscribers.Load "chat" = some [1, 2] ∧
    ((registerHandlers NewGame "chat" [1, 2]).sendInternalEvent
        (Callbacks.mk
          (fun t ev g => if t = 1 then Called.mk (g.RegisterHandler ev.Name 9) true
                         else Called.mk g false)
          (fun _ g => Called.mk g false) (fun _ g => Called.mk g false))
        (Event.mk "chat" "" "hi")).trace
      = [Effect.invoke 1 (Event.mk "chat" "" "hi")] ∧
    ((registerHandlers NewGame "chat" [1, 2]).sendInternalEvent
        (Callbacks.mk
          (fun t ev g => if t = 1 then Called.mk (g.RegisterHandler ev.Name 9) true
                         else Called.mk g false)
          (fun _ g => Called.mk g false) (fun _ g => Called.mk g false))
        (Event.mk "chat" "" "hi")).panicked = true ∧
    Effect.invoke 2 (Event.mk "chat" "" "hi") ∉
      ((registerHandlers NewGame "chat" [1, 2]).sendInternalEvent
        (Callbacks.mk
          (fun t ev g => if t = 1 then Called.mk (g.RegisterHandler ev.Name 9) true
                         else Called.mk g false)
          (fun _ g => Called.mk g false) (fun _ g => Called.mk g false))
        (Event.mk "chat" "" "hi")).trace := by
  decide

theorem registerHandler_steps (GM : GameManager) (n : String) (h : EventHandler) :
    registerHandlerStep n h (registerHandlerStep n h RegisterPc.atLoad GM).1
        (registerHandlerStep n h RegisterPc.atLoad GM).2
      = (RegisterPc.returned, GM.RegisterHandler n h) := by
  simp [registerHandlerStep, GameManager.RegisterHandler]

/-- C16 (what the code does): started together on a new manager, the calls
`RegisterHandler("chat", 1)` and `RegisterHandler("chat", 2)` both return under the
schedule Load, Load, Store, Store, and the list stored afterwards is `[2]`: the append
of handler `1` is lost.  Run one after the other, the same calls leave `[1, 2]`. -/
theorem registerHandler_concurrent_lost_append :
    (twoRegistersRun "chat" 1 2 [true, false, true, false] NewGame).pc1
      = RegisterPc.returned ∧
    (twoRegistersRun "chat" 1 2 [true, false, true, false] NewGame).pc2
      = RegisterPc.returned ∧
    (twoRegistersRun "chat" 1 2 [true, false, true, false] NewGame).gm.Subscribers.Load
      "chat" = some [2] ∧
    (twoRegistersRun "chat" 1 2 [true, true, false, false] NewGame).gm.Subscribers.Load
      "chat" = some [1, 2] := by
  decide

theorem runStep_invariant (cb : Callbacks) (order : List String) (main : Bool)
    (s : RunState)
    (h : ((s.pc = RunPc.atAdd ∧ s.wg = 0) ∨ (s.pc = RunPc.atGo ∧ s.wg = 1) ∨
          (s.pc = RunPc.atWait ∧ s.wg = 1)) ∧ s.debug = []) :
    (((runStep cb order main s).pc = RunPc.atAdd ∧ (runStep cb order main s).wg = 0) ∨
     ((runStep cb order main s).pc = RunPc.atGo ∧ (runStep cb order main s).wg = 1) ∨
     ((runStep cb order main s).pc = RunPc.atWait ∧ (runStep cb order main s).wg = 1)) ∧
    (runStep cb order main s).debug = [] := by
  unfold runStep
  by_cases hc : s.crashed = true
  · simpa [hc] using h
  · cases main with
    | false =>
      have : (runWorkerStep cb order s).pc = s.pc ∧ (runWorkerStep cb order s).wg = s.wg ∧
          (runWorkerStep cb order s).debug = s.debug := by
        unfold runWorkerStep
        cases s.worker <;> simp
      simpa [hc, this.1, this.2.1, this.2.2] using h
    | true =>
      obtain ⟨hpc, hd⟩ := h
      rcases hpc with ⟨hp, hw⟩ | ⟨hp, hw⟩ | ⟨hp, hw⟩ <;>
        simp [hc, runMainStep, hp, hw, hd]

theorem run_invariant (cb : Callbacks) (order : List String) (schedule : List Bool) :
    ∀ s : RunState,
      (((s.pc = RunPc.atAdd ∧ s.wg = 0) ∨ (s.pc = RunPc.atGo ∧ s.wg = 1) ∨
        (s.pc = RunPc.atWait ∧ s.wg = 1)) ∧ s.debug = []) →
      ((((schedule.foldl (fun s main => runStep cb order main s) s).pc = RunPc.atAdd ∧
         (schedule.foldl (fun s main => runStep cb order main s) s).wg = 0) ∨
        ((schedule.foldl (fun s main => runStep cb order main s) s).pc = RunPc.atGo ∧
         (schedule.foldl (fun s main => runStep cb order main s) s).wg = 1) ∨
        ((schedule.foldl (fun s main => runStep cb order main s) s).pc = RunPc.atWait ∧
         (schedule.foldl (fun s main => runStep cb order main s) s).wg = 1)) ∧
       (schedule.foldl (fun s main => runStep cb order main s) s).debug = []) := by
  induction schedule with
  | nil => intro s h; simpa using h
  | cons b t ih =>
    intro s h
    rw [List.foldl_cons]
    exact ih _ (runStep_invariant cb order b s h)

theorem runStep_wait (cb : Callbacks) (order : List String) (main : Bool)
    (s : RunState)
    (hp : s.pc = RunPc.atWait) (hw : s.wg = 1) :
    (runStep cb order main s).pc = RunPc.atWait ∧ (runStep cb order main s).wg = 1 := by
  unfold runStep
  by_cases hc : s.crashed = true
  · simp [hc, hp, hw]
  · cases main with
    | false =>
      unfold runWorkerStep
      cases s.worker <;> simp [hc, hp, hw]
    | true => simp [hc, runMainStep, hp, hw]

theorem run_wait (cb : Callbacks) (order : List String) (schedule : List Bool) :
    ∀ s : RunState, s.pc = RunPc.atWait → s.wg = 1 →
      (schedule.foldl (fun s main => runStep cb order main s) s).pc = RunPc.atWait := by
  induction schedule with
  | nil => intro s hp _; simpa using hp
  | cons b t ih =>
    intro s hp hw
    rw [List.foldl_cons]
    exact ih _ (runStep_wait cb order b s hp hw).1 (runStep_wait cb order b s hp hw).2

/-- C18: in every execution of `Run`, under every schedule, whatever components are
stored and in whatever order `Range` visits them, the wait-group counter is `1` from
`wg.Add(1)` on, the calling goroutine never gets past `wg.Wait()`, and so
"Game has started..." is never logged and `Run` never returns; once `wg.Add(1)` and
the `go` statement are done, the caller stands in `wg.Wait()` for ever. -/
theorem run_never_returns (cb : Callbacks) (order : List String) (GM : GameManager)
    (schedule : List Bool) :
    (GM.Run cb order schedule).pc ≠ RunPc.atDebug ∧
    (GM.Run cb order schedule).pc ≠ RunPc.returned ∧
    (GM.Run cb order schedule).debug = [] ∧
    (GM.Run cb order schedule).wg ≤ 1 ∧
    ((GM.Run cb order schedule).pc ≠ RunPc.atAdd → (GM.Run cb order schedule).wg = 1) ∧
    (GM.Run cb order (true :: true :: schedule)).pc = RunPc.atWait := by
  have hinv := run_invariant cb order schedule (runInit GM) (by simp [runInit])
  have h2 : (GM.Run cb order (true :: true :: schedule)).pc = RunPc.atWait := by
    unfold GameManager.Run
    rw [List.foldl_cons, List.foldl_cons]
    exact run_wait cb order schedule _ (by simp [runStep, runMainStep, runInit])
      (by simp [runStep, runMainStep, runInit])
  refine ⟨?_, ?_, hinv.2, ?_, ?_, h2⟩
  · intro h
    rcases hinv.1 with ⟨hp, _⟩ | ⟨hp, _⟩ | ⟨hp, _⟩ <;>
      · unfold GameManager.Run at h
        rw [hp] at h
        cases h
  · intro h
    rcases hinv.1 with ⟨hp, _⟩ | ⟨hp, _⟩ | ⟨hp, _⟩ <;>
      · unfold GameManager.Run at h
        rw [hp] at h
        cases h
  · rcases hinv.1 with ⟨_, hw⟩ | ⟨_, hw⟩ | ⟨_, hw⟩ <;>
      · unfold GameManager.Run
        omega
  · intro hne
    rcases hinv.1 with ⟨hp, _⟩ | ⟨_, hw⟩ | ⟨_, hw⟩
    · exact absurd hp hne
    · exact hw
    · exact hw

end engine

/-! ## Theorems: the dependency container -/

namespace di

theorem fetch_of_load (c : Container) (n : String) (d : Dependency)
    (h : c.Dependencies.Load n = some d) : c.Fetch n = Except.ok d := by
  simp [Container.Fetch, h]

theorem load_add (c : Container) (d : Dependency) :
    (c.Add d).Dependencies.Load d.Name = some d := by
  simp [Container.Add, sync.Map.Load_Store_self]

theorem mustGetVia_deps (get : Container → String → Option Run)
    (hget : ∀ c n r, get c n = some r → r.c.Dependencies = c.Dependencies)
    (c : Container) (n : String) (r : Run) (h : mustGetVia get c n = some r) :
    r.c.Dependencies = c.Dependencies := by
  unfold mustGetVia at h
  cases hg : get c n with
  | none => simp [hg] at h
  | some r1 =>
    have h1 := hget c n r1 hg
    rw [hg] at h
    cases ho : r1.outcome with
    | panicked msg =>
      simp only [ho, Option.some.injEq] at h
      rw [← h]; exact h1
    | returned dep err =>
      cases err with
      | none =>
        simp only [ho, Option.some.injEq] at h
        rw [← h]; exact h1
      | some msg =>
        simp only [ho, Option.some.injEq] at h
        rw [← h]; exact h1

theorem runBuild_deps (get : Container → String → Option Run)
    (hget : ∀ c n r, get c n = some r → r.c.Dependencies = c.Dependencies)
    (b : BuildFunc) :
    ∀ (c : Container) (r : Run), runBuild get b c = some r →
      r.c.Dependencies = c.Dependencies := by
  induction b with
  | ret v err =>
    intro c r h
    simp only [runBuild, Option.some.injEq] at h
    rw [← h]
  | get n k ih =>
    intro c r h
    unfold runBuild at h
    cases hg : get c n with
    | none => simp [hg] at h
    | some r1 =>
      have h1 := hget c n r1 hg
      rw [hg] at h
      cases ho : r1.outcome with
      | panicked msg =>
        simp only [ho, Option.some.injEq] at h
        rw [← h]; exact h1
      | returned v err =>
        simp only [ho] at h
        cases hk : runBuild get (k v err) r1.c with
        | none => simp [hk] at h
        | some r2 =>
          have h2 := ih v err r1.c r2 hk
          simp only [hk, Option.some.injEq] at h
          rw [← h]
          exact h2.trans h1
  | mustGet n k ih =>
    intro c r h
    unfold runBuild at h
    cases hg : mustGetVia get c n with
    | none => simp [hg] at h
    | some r1 =>
      have h1 := mustGetVia_deps get hget c n r1 hg
      rw [hg] at h
      cases ho : r1.outcome with
      | panicked msg =>
        simp only [ho, Option.some.injEq] at h
        rw [← h]; exact h1
      | returned v err =>
        simp only [ho] at h
        cases hk : runBuild get (k v) r1.c with
        | none => simp [hk] at h
        | some r2 =>
          have h2 := ih v r1.c r2 hk
          simp only [hk, Option.some.injEq] at h
          rw [← h]
          exact h2.trans h1

theorem get_cached (fuel : Nat) (c : Container) (n : String) (dep : Dependency) (i : Value)
    (hf : c.Fetch n = Except.ok dep) (hs : dep.Shared = true)
    (hc : c.Cache.Get n = some i) :
    c.Get (fuel + 1) n = some { outcome := Outcome.returned i none, c := c, calls := [] } := by
  simp [Container.Get, hf, hs, Container.getFromCache, hc]

theorem get_build (fuel : Nat) (c : Container) (n : String) (dep : Dependency)
    (hf : c.Fetch n = Except.ok dep)
    (hmiss : dep.Shared = false ∨ c.Cache.Get n = none) :
    c.Get (fuel + 1) n =
      match runBuild (Container.Get fuel) dep.Build c with
      | none => none
      | some r =>
        match r.outcome with
        | Outcome.panicked msg =>
          some { outcome := Outcome.panicked msg, c := r.c
                 calls := [Call.build dep.Name r.calls] }
        | Outcome.returned i err =>
          some { outcome := Outcome.returned i err
                 c := if err = none ∧ dep.Shared = true then
                        { r.c with Cache := r.c.Cache.Set dep.Name i }
                      else r.c
                 calls := [Call.build dep.Name r.calls] } := by
  rcases hmiss with hs | hc
  · simp [Container.Get, hf, hs]
  · cases hsh : dep.Shared <;> simp [Container.Get, hf, hsh, Container.getFromCache, hc]

theorem get_deps : ∀ (fuel : Nat) (c : Container) (n : String) (r : Run),
    c.Get fuel n = some r → r.c.Dependencies = c.Dependencies := by
  intro fuel
  induction fuel with
  | zero => intro c n r h; simp [Container.Get] at h
  | succ fuel ih =>
    intro c n r h
    cases hf : c.Fetch n with
    | error err =>
      simp only [Container.Get, hf, Option.some.injEq] at h
      rw [← h]
    | ok dep =>
      by_cases hhit : dep.Shared = true ∧ ∃ i, c.Cache.Get n = some i
      · obtain ⟨hs, i, hc⟩ := hhit
        rw [get_cached fuel c n dep i hf hs hc] at h
        simp only [Option.some.injEq] at h
        rw [← h]
      · have hmiss : dep.Shared = false ∨ c.Cache.Get n = none := by
          cases hsh : dep.Shared
          · exact Or.inl rfl
          · right
            cases hc : c.Cache.Get n with
            | none => rfl
            | some i => exact absurd ⟨hsh, i, hc⟩ hhit
        rw [get_build fuel c n dep hf hmiss] at h
        cases hb : runBuild (Container.Get fuel) dep.Build c with
        | none => simp [hb] at h
        | some rb =>
          have hd := runBuild_deps (Container.Get fuel) ih dep.Build c rb hb
          rw [hb] at h
          cases ho : rb.outcome with
          | panicked msg =>
            simp only [ho, Option.some.injEq] at h
            rw [← h]; exact hd
          | returned v err =>
            simp only [ho, Option.some.injEq] at h
            rw [← h]
            by_cases hw : err = none ∧ dep.Shared = true
            · simp [hw, hd]
            · simp [hw, hd]

/-- C7: let `d` have `Shared = false`.  In every container that holds the
dependencies left by `Add(d)`, a call `Get(d.Name)` is one invocation of `d.Build` on
that container: it comes back when the build does, with the value and error (or the
panic) of the build and with the container exactly as the build left it, so `Get`
itself writes nothing to the cache.  `Add(d)` stores `d` under its name, and no call of
`Get` changes the stored dependencies, so this holds for each call after `Add(d)`. -/
theorem get_unshared_builds_each_time (fuel : Nat) (c : Container) (d : Dependency)
    (hs : d.Shared = false) :
    (∀ c1 : Container, c1.Dependencies = (c.Add d).Dependencies →
      c1.Get (fuel + 1) d.Name =
        (runBuild (Container.Get fuel) d.Build c1).map
          (fun rb => { outcome := rb.outcome, c := rb.c
                       calls := [Call.build d.Name rb.calls] })) ∧
    (∀ (v : Value) (err : error), d.Build = BuildFunc.ret v err →
      (c.Add d).Get (fuel + 1) d.Name =
        some { outcome := Outcome.returned v err, c := c.Add d
               calls := [Call.build d.Name []] }) ∧
    (∀ (f : Nat) (c1 : Container) (n : String) (r : Run),
      c1.Get f n = some r → r.c.Dependencies = c1.Dependencies) := by
  have key : ∀ c1 : Container, c1.Dependencies = (c.Add d).Dependencies →
      c1.Get (fuel + 1) d.Name =
        (runBuild (Container.Get fuel) d.Build c1).map
          (fun rb => { outcome := rb.outcome, c := rb.c
                       calls := [Call.build d.Name rb.calls] }) := by
    intro c1 hd
    have hl : c1.Dependencies.Load d.Name = some d := by rw [hd]; exact load_add c d
    rw [get_build fuel c1 d.Name d (fetch_of_load c1 d.Name d hl) (Or.inl hs)]
    cases hb : runBuild (Container.Get fuel) d.Build c1 with
    | none => rfl
    | some rb =>
      cases ho : rb.outcome with
      | panicked msg => simp [ho]
      | returned v err => simp [ho, hs]
  refine ⟨key, ?_, get_deps⟩
  intro v err hbuild
  rw [key (c.Add d) rfl, hbuild]
  rfl

theorem get_unshared_builds_each_time_witness :
    (Dependency.mk "TestDependency" false (BuildFunc.ret (Value.str "test") none)).Shared
      = false ∧
    (NewContainer.Add
        (Dependency.mk "TestDependency" false (BuildFunc.ret (Value.str "test") none))).Get
        1 "TestDependency" =
      some { outcome := Outcome.returned (Value.str "test") none
             c := NewContainer.Add
               (Dependency.mk "TestDependency" false (BuildFunc.ret (Value.str "test") none))
             calls := [Call.build "TestDependency" []] } :=
  ⟨rfl,
   (get_unshared_builds_each_time 0 NewContainer
      (Dependency.mk "TestDependency" false (BuildFunc.ret (Value.str "test") none))
      rfl).2.1 (Value.str "test") none rfl⟩

/-- C4 (as the code has it): let `d` have `Shared = true` and let the cache hold no
entry under `d.Name`.  If the build of `d` on the container after `Add(d)` returns
`(v, nil)`, then the first `Get(d.Name)` is one invocation of `d.Build`, returns
`(v, nil)` and leaves a container that still holds the dependencies of `Add(d)` and
caches `v` under `d.Name`; and in every container that holds those dependencies and
caches `v` under `d.Name`, `Get(d.Name)` returns `(v, nil)` with no invocation of
`Build` and leaves the container as it is, so the same holds for all the calls that
follow. -/
theorem get_shared_builds_once (fuel : Nat) (c : Container) (d : Dependency) (v : Value)
    (rb : Run) (hs : d.Shared = true) (hc : c.Cache.Get d.Name = none)
    (hb : runBuild (Container.Get fuel) d.Build (c.Add d) = some rb)
    (hv : rb.outcome = Outcome.returned v none) :
    (c.Add d).Get (fuel + 1) d.Name =
      some { outcome := Outcome.returned v none
             c := { rb.c with Cache := rb.c.Cache.Set d.Name v }
             calls := [Call.build d.Name rb.calls] } ∧
    ({ rb.c with Cache := rb.c.Cache.Set d.Name v } : Container).Dependencies
      = (c.Add d).Dependencies ∧
    ({ rb.c with Cache := rb.c.Cache.Set d.Name v } : Container).Cache.Get d.Name = some v ∧
    (∀ (fuel2 : Nat) (c2 : Container),
      c2.Dependencies = (c.Add d).Dependencies → c2.Cache.Get d.Name = some v →
      c2.Get (fuel2 + 1) d.Name =
        some { outcome := Outcome.returned v none, c := c2, calls := [] }) := by
  refine ⟨?_, ?_, ?_, ?_⟩
  · rw [get_build fuel (c.Add d) d.Name d (fetch_of_load _ _ _ (load_add c d))
      (Or.inr (by simpa [Container.Add] using hc)), hb]
    simp [hv, hs]
  · exact runBuild_deps (Container.Get fuel) (get_deps fuel) d.Build (c.Add d) rb hb
  · simp [Cache.Set, Cache.Get, sync.Map.Load_Store_self]
  · intro fuel2 c2 hd hcache
    have hl : c2.Dependencies.Load d.Name = some d := by rw [hd]; exact load_add c d
    exact get_cached fuel2 c2 d.Name d v (fetch_of_load _ _ _ hl) hs hcache

theorem get_shared_builds_once_witness :
    (Dependency.mk "TestDependency" true (BuildFunc.ret (Value.ptr 1) none)).Shared = true ∧
    NewContainer.Cache.Get "TestDependency" = none ∧
    (NewContainer.Add
        (Dependency.mk "TestDependency" true (BuildFunc.ret (Value.ptr 1) none))).Get
        1 "TestDependency" =
      some { outcome := Outcome.returned (Value.ptr 1) none
             c := { (NewContainer.Add
                      (Dependency.mk "TestDependency" true
                        (BuildFunc.ret (Value.ptr 1) none))) with
                    Cache := NewContainer.Cache.Set "TestDependency" (Value.ptr 1) }
             calls := [Call.build "TestDependency" []] } :=
  ⟨rfl, by decide,
   (get_shared_builds_once 0 NewContainer
      (Dependency.mk "TestDependency" true (BuildFunc.ret (Value.ptr 1) none)) (Value.ptr 1)
      { outcome := Outcome.returned (Value.ptr 1) none
        c := NewContainer.Add
          (Dependency.mk "TestDependency" true (BuildFunc.ret (Value.ptr 1) none))
        calls := [] }
      rfl (by decide) rfl rfl).1⟩

/-- C4 (the claim as stated fails): a shared dependency named "x" is added and
resolved, which caches "old" under "x"; then the shared dependency `d`, also named
"x", whose build returns `("new", nil)`, is added.  The first `Get("x")` after that
does not invoke `d.Build` at all and returns the cached "old". -/
theorem get_shared_stale_cache_no_build :
    (Dependency.mk "x" true (BuildFunc.ret (Value.str "new") none)).Shared = true ∧
    (((NewContainer.Add (Dependency.mk "x" true (BuildFunc.ret (Value.str "old") none))).Get
        1 "x").bind
      (fun r0 =>
        (runBuild (Container.Get 0) (BuildFunc.ret (Value.str "new") none)
          (r0.c.Add (Dependency.mk "x" true (BuildFunc.ret (Value.str "new") none)))).map
        (fun rb => rb.outcome)))
      = some (Outcome.returned (Value.str "new") none) ∧
    (((NewContainer.Add (Dependency.mk "x" true (BuildFunc.ret (Value.str "old") none))).Get
        1 "x").bind
      (fun r0 =>
        ((r0.c.Add (Dependency.mk "x" true (BuildFunc.ret (Value.str "new") none))).Get
          1 "x").map
        (fun r => (r.outcome, r.calls.length))))
      = some (Outcome.returned (Value.str "old") none, 0) := by
  refine ⟨rfl, ?_, ?_⟩ <;> decide

theorem get_missing (fuel : Nat) (c : Container) (n : String)
    (h : c.Dependencies.Load n = none) :
    c.Get (fuel + 1) n =
      some { outcome := Outcome.returned Value.nil
               (some ("Unable to find dependency with name " ++ n))
             c := c, calls := [] } := by
  simp [Container.Get, Container.Fetch, h]

/-- C12 (as the code has it): in every container, for a name `n` with no stored
dependency `Fetch(n)` returns an error, `Get(n)` returns the nil value with that
error, invokes no `Build` and leaves the container, cache included, as it was, and
`MustGet(n)` panics with that error.  For every name, when `Get(n)` comes back so does
`MustGet(n)`, with the same container and the same `Build` invocations: it returns the
value of `Get` when `Get` returned a nil error, panics with the error when `Get`
returned one, and panics as well when `Get` itself panicked; so `MustGet(n)` panics
exactly when `Get(n)` returns a non-nil error or panics. -/
theorem get_missing_and_mustGet (fuel : Nat) (c : Container) :
    (∀ n, c.Dependencies.Load n = none →
      c.Fetch n = Except.error ("Unable to find dependency with name " ++ n) ∧
      c.Get (fuel + 1) n =
        some { outcome := Outcome.returned Value.nil
                 (some ("Unable to find dependency with name " ++ n))
               c := c, calls := [] } ∧
      c.MustGet (fuel + 1) n =
        some { outcome := Outcome.panicked ("Unable to find dependency with name " ++ n)
               c := c, calls := [] }) ∧
    (∀ n r, c.Get fuel n = some r →
      ∃ m, c.MustGet fuel n = some m ∧ m.c = r.c ∧ m.calls = r.calls ∧
        (∀ v, r.outcome = Outcome.returned v none → m.outcome = Outcome.returned v none) ∧
        (∀ v msg, r.outcome = Outcome.returned v (some msg) →
          m.outcome = Outcome.panicked msg) ∧
        (∀ msg, r.outcome = Outcome.panicked msg → m.outcome = Outcome.panicked msg) ∧
        ((∃ msg, m.outcome = Outcome.panicked msg) ↔
          ((∃ v msg, r.outcome = Outcome.returned v (some msg)) ∨
           (∃ msg, r.outcome = Outcome.panicked msg)))) := by
  constructor
  · intro n h
    refine ⟨by simp [Container.Fetch, h], get_missing fuel c n h, ?_⟩
    simp [Container.MustGet, mustGetVia, get_missing fuel c n h]
  · intro n r hg
    cases ho : r.outcome with
    | panicked msg =>
      refine ⟨{ r with outcome := Outcome.panicked msg }, ?_, rfl, rfl, ?_⟩
      · simp [Container.MustGet, mustGetVia, hg, ho]
      · simp
    | returned v err =>
      cases err with
      | none =>
        refine ⟨{ r with outcome := Outcome.returned v none }, ?_, rfl, rfl, ?_⟩
        · simp [Container.MustGet, mustGetVia, hg, ho]
        · simp
      | some msg =>
        refine ⟨{ r with outcome := Outcome.panicked msg }, ?_, rfl, rfl, ?_⟩
        · simp [Container.MustGet, mustGetVia, hg, ho]
        · simp

theorem get_missing_and_mustGet_witness :
    NewContainer.Dependencies.Load "TestDependency" = none ∧
    NewContainer.Get 1 "TestDependency" =
      some { outcome := Outcome.returned Value.nil
               (some ("Unable to find dependency with name " ++ "TestDependency"))
             c := NewContainer, calls := [] } :=
  ⟨rfl, ((get_missing_and_mustGet 0 NewContainer).1 "TestDependency" rfl).2.1⟩

/-- C12 (the claim as stated fails): the build of "P" calls `ctx.MustGet("T")` and no
dependency is stored under "T".  `Get("P")` does not return an error, it panics inside
the build, and `MustGet("P")` panics with it. -/
theorem mustGet_panics_without_get_error :
    ((NewContainer.Add
        (Dependency.mk "P" false
          (BuildFunc.mustGet "T" (fun t => BuildFunc.ret t none)))).Get 2 "P").map
        (fun r => r.outcome)
      = some (Outcome.panicked "Unable to find dependency with name T") ∧
    ((NewContainer.Add
        (Dependency.mk "P" false
          (BuildFunc.mustGet "T" (fun t => BuildFunc.ret t none)))).MustGet 2 "P").map
        (fun r => r.outcome)
      = some (Outcome.panicked "Unable to find dependency with name T") := by
  decide

theorem get_build_returned (fuel : Nat) (c : Container) (d : Dependency) (v : Value)
    (err : error) (rb : Run) (hl : c.Dependencies.Load d.Name = some d)
    (hmiss : d.Shared = false ∨ c.Cache.Get d.Name = none)
    (hb : runBuild (Container.Get fuel) d.Build c = some rb)
    (hv : rb.outcome = Outcome.returned v err) :
    c.Get (fuel + 1) d.Name =
      some { outcome := Outcome.returned v err
             c := if err = none ∧ d.Shared = true then
                    { rb.c with Cache := rb.c.Cache.Set d.Name v }
                  else rb.c
             calls := [Call.build d.Name rb.calls] } := by
  rw [get_build fuel c d.Name d (fetch_of_load c d.Name d hl) hmiss, hb]
  simp [hv]

/-- C17 (as the code has it): `Get` hands the container it is called on to `Build`.
Let the container hold `T` and `P` under their names, let the build of `T` on it return
`(t, nil)`, let the build of `P` return the value `mk x` made from
`x = ctx.MustGet(T.Name)`, and let neither `T` nor `P`, where shared, have an entry in
the cache under its name.  Then `Get(P.Name)` returns `(mk t, nil)`: it invokes the
build of `P` once, and inside it the build of `T` once. -/
theorem get_passes_container (fuel : Nat) (c : Container) (T P : Dependency)
    (mk : Value → Value) (t : Value) (rT : Run)
    (hT : c.Dependencies.Load T.Name = some T)
    (hP : c.Dependencies.Load P.Name = some P)
    (hPb : P.Build = BuildFunc.mustGet T.Name (fun x => BuildFunc.ret (mk x) none))
    (hTb : runBuild (Container.Get fuel) T.Build c = some rT)
    (hTv : rT.outcome = Outcome.returned t none)
    (hTc : T.Shared = false ∨ c.Cache.Get T.Name = none)
    (hPc : P.Shared = false ∨ c.Cache.Get P.Name = none) :
    ∃ c2 : Container,
      c.Get (fuel + 2) P.Name =
        some { outcome := Outcome.returned (mk t) none, c := c2
               calls := [Call.build P.Name [Call.build T.Name rT.calls]] } ∧
      c2.Dependencies = c.Dependencies := by
  have h1 := get_build_returned fuel c T t none rT hT hTc hTb hTv
  have h2 : runBuild (Container.Get (fuel + 1)) P.Build c =
      some { outcome := Outcome.returned (mk t) none
             c := if (none : error) = none ∧ T.Shared = true then
                    { rT.c with Cache := rT.c.Cache.Set T.Name t }
                  else rT.c
             calls := [Call.build T.Name rT.calls] } := by
    rw [hPb]
    simp [runBuild, mustGetVia, h1]
  have h3 := get_build_returned (fuel + 1) c P (mk t) none _ hP hPc h2 rfl
  refine ⟨_, h3, ?_⟩
  have hd : rT.c.Dependencies = c.Dependencies :=
    runBuild_deps (Container.Get fuel) (get_deps fuel) T.Build c rT hTb
  cases T.Shared <;> cases P.Shared <;> simp [hd]

theorem get_passes_container_witness :
    ((NewContainer.Add
        (Dependency.mk "TestDependency" false (BuildFunc.ret (Value.ptr 1) none))).Add
        (Dependency.mk "ParamBag" true
          (BuildFunc.mustGet "TestDependency"
            (fun x => BuildFunc.ret (Value.struct "ParamBag" x) none)))).Dependencies.Load
        "ParamBag"
      = some (Dependency.mk "ParamBag" true
          (BuildFunc.mustGet "TestDependency"
            (fun x => BuildFunc.ret (Value.struct "ParamBag" x) none))) ∧
    ∃ c2 : Container,
      ((NewContainer.Add
          (Dependency.mk "TestDependency" false (BuildFunc.ret (Value.ptr 1) none))).Add
          (Dependency.mk "ParamBag" true
            (BuildFunc.mustGet "TestDependency"
              (fun x => BuildFunc.ret (Value.struct "ParamBag" x) none)))).Get 2 "ParamBag"
        = some { outcome := Outcome.returned (Value.struct "ParamBag" (Value.ptr 1)) none
                 c := c2
                 calls := [Call.build "ParamBag" [Call.build "TestDependency" []]] } ∧
      c2.Dependencies =
        ((NewContainer.Add
          (Dependency.mk "TestDependency" false (BuildFunc.ret (Value.ptr 1) none))).Add
          (Dependency.mk "ParamBag" true
            (BuildFunc.mustGet "TestDependency"
              (fun x => BuildFunc.ret (Value.struct "ParamBag" x) none)))).Dependencies :=
  ⟨rfl,
   get_passes_container 0
     ((NewContainer.Add
        (Dependency.mk "TestDependency" false (BuildFunc.ret (Value.ptr 1) none))).Add
        (Dependency.mk "ParamBag" true
          (BuildFunc.mustGet "TestDependency"
            (fun x => BuildFunc.ret (Value.struct "ParamBag" x) none))))
     (Dependency.mk "TestDependency" false (BuildFunc.ret (Value.ptr 1) none))
     (Dependency.mk "ParamBag" true
        (BuildFunc.mustGet "TestDependency"
          (fun x => BuildFunc.ret (Value.struct "ParamBag" x) none)))
     (fun x => Value.struct "ParamBag" x) (Value.ptr 1)
     { outcome := Outcome.returned (Value.ptr 1) none
       c := (NewContainer.Add
          (Dependency.mk "TestDependency" false (BuildFunc.ret (Value.ptr 1) none))).Add
          (Dependency.mk "ParamBag" true
            (BuildFunc.mustGet "TestDependency"
              (fun x => BuildFunc.ret (Value.struct "ParamBag" x) none)))
       calls := [] }
     rfl rfl rfl rfl rfl (Or.inl rfl) (Or.inr rfl)⟩

/-- C17 (the claim as stated fails): a shared dependency named "ParamBag" is added and
resolved, which caches "old" under that name.  Then `T`, whose build returns
`(ptr 1, nil)`, and the shared `P`, also named "ParamBag", whose build returns the
`ParamBag` made from `ctx.MustGet("TestDependency")`, are added.  `Get("ParamBag")`
invokes no build and returns the cached "old", not the `ParamBag` made from the
instance of `T`. -/
theorem get_param_bag_stale_cache :
    (((NewContainer.Add
        (Dependency.mk "ParamBag" true (BuildFunc.ret (Value.str "old") none))).Get
        1 "ParamBag").bind
      (fun r0 =>
        (((r0.c.Add
            (Dependency.mk "TestDependency" false (BuildFunc.ret (Value.ptr 1) none))).Add
            (Dependency.mk "ParamBag" true
              (BuildFunc.mustGet "TestDependency"
                (fun x => BuildFunc.ret (Value.struct "ParamBag" x) none)))).Get
          2 "ParamBag").map
        (fun r => (r.outcome, r.calls.length))))
      = some (Outcome.returned (Value.str "old") none, 0) ∧
    Value.str "old" ≠ Value.struct "ParamBag" (Value.ptr 1) := by
  decide

theorem buildsAny_append (k : String) (xs ys : List Call) :
    Call.buildsAny k (xs ++ ys) = (Call.buildsAny k xs || Call.buildsAny k ys) := by
  induction xs with
  | nil => simp [Call.buildsAny]
  | cons x t ih => simp [Call.buildsAny, ih, Bool.or_assoc]

theorem mustGetVia_cache (get : Container → String → Option Run)
    (hget : ∀ c n r, get c n = some r → ∀ k, Call.buildsAny k r.calls = false →
      r.c.Cache.Get k = c.Cache.Get k)
    (c : Container) (n : String) (r : Run) (h : mustGetVia get c n = some r) :
    ∀ k, Call.buildsAny k r.calls = false → r.c.Cache.Get k = c.Cache.Get k := by
  unfold mustGetVia at h
  cases hg : get c n with
  | none => simp [hg] at h
  | some r1 =>
    have h1 := hget c n r1 hg
    rw [hg] at h
    cases ho : r1.outcome with
    | panicked msg =>
      simp only [ho, Option.some.injEq] at h
      rw [← h]; exact h1
    | returned dep err =>
      cases err with
      | none =>
        simp only [ho, Option.some.injEq] at h
        rw [← h]; exact h1
      | some msg =>
        simp only [ho, Option.some.injEq] at h
        rw [← h]; exact h1

theorem runBuild_cache (get : Container → String → Option Run)
    (hget : ∀ c n r, get c n = some r → ∀ k, Call.buildsAny k r.calls = false →
      r.c.Cache.Get k = c.Cache.Get k)
    (b : BuildFunc) :
    ∀ (c : Container) (r : Run), runBuild get b c = some r →
      ∀ k, Call.buildsAny k r.calls = false → r.c.Cache.Get k = c.Cache.Get k := by
  induction b with
  | ret v err =>
    intro c r h k _
    simp only [runBuild, Option.some.injEq] at h
    rw [← h]
  | get n f ih =>
    intro c r h k hk
    unfold runBuild at h
    cases hg : get c n with
    | none => simp [hg] at h
    | some r1 =>
      have h1 := hget c n r1 hg
      rw [hg] at h
      cases ho : r1.outcome with
      | panicked msg =>
        simp only [ho, Option.some.injEq] at h
        rw [← h] at hk ⊢
        exact h1 k hk
      | returned v err =>
        simp only [ho] at h
        cases hr : runBuild get (f v err) r1.c with
        | none => simp [hr] at h
        | some r2 =>
          simp only [hr, Option.some.injEq] at h
          rw [← h] at hk ⊢
          simp only [buildsAny_append, Bool.or_eq_false_iff] at hk
          exact (ih v err r1.c r2 hr k hk.2).trans (h1 k hk.1)
  | mustGet n f ih =>
    intro c r h k hk
    unfold runBuild at h
    cases hg : mustGetVia get c n with
    | none => simp [hg] at h
    | some r1 =>
      have h1 := mustGetVia_cache get hget c n r1 hg
      rw [hg] at h
      cases ho : r1.outcome with
      | panicked msg =>
        simp only [ho, Option.some.injEq] at h
        rw [← h] at hk ⊢
        exact h1 k hk
      | returned v err =>
        simp only [ho] at h
        cases hr : runBuild get (f v) r1.c with
        | none => simp [hr] at h
        | some r2 =>
          simp only [hr, Option.some.injEq] at h
          rw [← h] at hk ⊢
          simp only [buildsAny_append, Bool.or_eq_false_iff] at hk
          exact (ih v r1.c r2 hr k hk.2).trans (h1 k hk.1)

theorem get_cache : ∀ (fuel : Nat) (c : Container) (n : String) (r : Run),
    c.Get fuel n = some r →
    ∀ k, Call.buildsAny k r.calls = false → r.c.Cache.Get k = c.Cache.Get k := by
  intro fuel
  induction fuel with
  | zero => intro c n r h; simp [Container.Get] at h
  | succ fuel ih =>
    intro c n r h k hk
    cases hf : c.Fetch n with
    | error err =>
      simp only [Container.Get, hf, Option.some.injEq] at h
      rw [← h]
    | ok dep =>
      by_cases hhit : dep.Shared = true ∧ ∃ i, c.Cache.Get n = some i
      · obtain ⟨hs, i, hc⟩ := hhit
        rw [get_cached fuel c n dep i hf hs hc] at h
        simp only [Option.some.injEq] at h
        rw [← h]
      · have hmiss : dep.Shared = false ∨ c.Cache.Get n = none := by
          cases hsh : dep.Shared
          · exact Or.inl rfl
          · right
            cases hc : c.Cache.Get n with
            | none => rfl
            | some i => exact absurd ⟨hsh, i, hc⟩ hhit
        rw [get_build fuel c n dep hf hmiss] at h
        cases hb : runBuild (Container.Get fuel) dep.Build c with
        | none => simp [hb] at h
        | some rb =>
          have hfr := runBuild_cache (Container.Get fuel) ih dep.Build c rb hb
          rw [hb] at h
          cases ho : rb.outcome with
          | panicked msg =>
            simp only [ho, Option.some.injEq] at h
            rw [← h] at hk ⊢
            simp only [Call.buildsAny, Call.builds, Bool.or_false, Bool.or_eq_false_iff] at hk
            exact hfr k hk.2
          | returned v err =>
            simp only [ho, Option.some.injEq] at h
            rw [← h] at hk ⊢
            simp only [Call.buildsAny, Call.builds, Bool.or_false, Bool.or_eq_false_iff] at hk
            have hne : k ≠ dep.Name := by
              intro hkn
              have := hk.1
              simp [hkn] at this
            by_cases hw : err = none ∧ dep.Shared = true
            · simp only [hw, and_self, if_true]
              show (rb.c.Cache.Set dep.Name v).Get k = c.Cache.Get k
              rw [← hfr k hk.2]
              simp [Cache.Set, Cache.Get, sync.Map.Load_Store_of_ne _ dep.Name k v hne]
            · simp only [hw, if_false]
              exact hfr k hk.2

/-- C19 (as the code has it): let `d`, shared or not, be stored under its name, let
the cache hold no entry under `d.Name`, and let the build of `d` return `(v, err)` with
a non-nil `err` without a build of a dependency named `d.Name` being invoked inside it.
Then `Get(d.Name)` is one invocation of `d.Build`, returns `(v, err)` and leaves the
container exactly as the build left it: `Get` stores nothing, the cache still has no
entry under `d.Name`, and its entries changed at most under the names built inside the
build.  The next `Get(d.Name)`, on the container so left, goes to `d.Build` again: it
comes back exactly when that build does, with its outcome and one more invocation. -/
theorem get_shared_error_not_cached (fuel : Nat) (c : Container) (d : Dependency)
    (v : Value) (msg : String) (rb : Run)
    (hl : c.Dependencies.Load d.Name = some d)
    (hc : c.Cache.Get d.Name = none)
    (hb : runBuild (Container.Get fuel) d.Build c = some rb)
    (hv : rb.outcome = Outcome.returned v (some msg))
    (hnest : Call.buildsAny d.Name rb.calls = false) :
    c.Get (fuel + 1) d.Name =
      some { outcome := Outcome.returned v (some msg), c := rb.c
             calls := [Call.build d.Name rb.calls] } ∧
    rb.c.Cache.Get d.Name = none ∧
    rb.c.Dependencies = c.Dependencies ∧
    (∀ k, Call.buildsAny k rb.calls = false → rb.c.Cache.Get k = c.Cache.Get k) ∧
    (∀ (fuel2 : Nat) (r2 : Run), rb.c.Get (fuel2 + 1) d.Name = some r2 →
      ∃ rb2, runBuild (Container.Get fuel2) d.Build rb.c = some rb2 ∧
        r2.outcome = rb2.outcome ∧ r2.calls = [Call.build d.Name rb2.calls]) ∧
    (∀ (fuel2 : Nat) (rb2 : Run), runBuild (Container.Get fuel2) d.Build rb.c = some rb2 →
      ∃ r2, rb.c.Get (fuel2 + 1) d.Name = some r2 ∧
        r2.outcome = rb2.outcome ∧ r2.calls = [Call.build d.Name rb2.calls]) := by
  have hframe := runBuild_cache (Container.Get fuel) (get_cache fuel) d.Build c rb hb
  have hdeps : rb.c.Dependencies = c.Dependencies :=
    runBuild_deps (Container.Get fuel) (get_deps fuel) d.Build c rb hb
  have hc2 : rb.c.Cache.Get d.Name = none := by rw [hframe d.Name hnest]; exact hc
  have hl2 : rb.c.Dependencies.Load d.Name = some d := by rw [hdeps]; exact hl
  have hnext : ∀ fuel2 : Nat, rb.c.Get (fuel2 + 1) d.Name =
      match runBuild (Container.Get fuel2) d.Build rb.c with
      | none => none
      | some r =>
        match r.outcome with
        | Outcome.panicked m =>
          some { outcome := Outcome.panicked m, c := r.c
                 calls := [Call.build d.Name r.calls] }
        | Outcome.returned i err =>
          some { outcome := Outcome.returned i err
                 c := if err = none ∧ d.Shared = true then
                        { r.c with Cache := r.c.Cache.Set d.Name i }
                      else r.c
                 calls := [Call.build d.Name r.calls] } :=
    fun fuel2 =>
      get_build fuel2 rb.c d.Name d (fetch_of_load rb.c d.Name d hl2) (Or.inr hc2)
  refine ⟨?_, hc2, hdeps, hframe, ?_, ?_⟩
  · rw [get_build_returned fuel c d v (some msg) rb hl (Or.inr hc) hb hv]
    simp
  · intro fuel2 r2 hg
    rw [hnext fuel2] at hg
    cases hb2 : runBuild (Container.Get fuel2) d.Build rb.c with
    | none => simp [hb2] at hg
    | some rb2 =>
      rw [hb2] at hg
      refine ⟨rb2, rfl, ?_⟩
      cases ho : rb2.outcome with
      | panicked m =>
        simp only [ho, Option.some.injEq] at hg
        rw [← hg]; exact ⟨rfl, rfl⟩
      | returned i err =>
        simp only [ho, Option.some.injEq] at hg
        rw [← hg]; exact ⟨rfl, rfl⟩
  · intro fuel2 rb2 hb2
    rw [hnext fuel2, hb2]
    cases ho : rb2.outcome with
    | panicked m =>
      exact ⟨{ outcome := Outcome.panicked m, c := rb2.c
               calls := [Call.build d.Name rb2.calls] }, by simp [ho], rfl, rfl⟩
    | returned i err =>
      exact ⟨{ outcome := Outcome.returned i err
               c := if err = none ∧ d.Shared = true then
                      { rb2.c with Cache := rb2.c.Cache.Set d.Name i }
                    else rb2.c
               calls := [Call.build d.Name rb2.calls] }, by simp [ho], rfl, rfl⟩

theorem get_shared_error_not_cached_witness :
    (NewContainer.Add
        (Dependency.mk "x" true (BuildFunc.ret Value.nil (some "boom")))).Cache.Get "x"
      = none ∧
    (NewContainer.Add
        (Dependency.mk "x" true (BuildFunc.ret Value.nil (some "boom")))).Get 1 "x" =
      some { outcome := Outcome.returned Value.nil (some "boom")
             c := NewContainer.Add
               (Dependency.mk "x" true (BuildFunc.ret Value.nil (some "boom")))
             calls := [Call.build "x" []] } :=
  ⟨by decide,
   (get_shared_error_not_cached 0
      (NewContainer.Add (Dependency.mk "x" true (BuildFunc.ret Value.nil (some "boom"))))
      (Dependency.mk "x" true (BuildFunc.ret Value.nil (some "boom"))) Value.nil "boom"
      { outcome := Outcome.returned Value.nil (some "boom")
        c := NewContainer.Add
          (Dependency.mk "x" true (BuildFunc.ret Value.nil (some "boom")))
        calls := [] }
      rfl (by decide) rfl rfl rfl).1⟩

/-- C19 (the claim as stated fails): a shared dependency named "x" is added and
resolved, which caches "old" under "x"; then the shared `d`, also named "x", whose
build returns the error "boom", is added.  `Get("x")` invokes no build and returns
`("old", nil)`, not the error.  A second way: the build of the shared `d` named "x"
calls `ctx.Get("y")` and returns "boom", and the entry "y" of the container holds a
shared dependency whose `Name` is "x" and whose build returns `("z", nil)`.  The first
`Get("x")` returns the error, yet "z" is now cached under "x" and the next `Get("x")`
returns `("z", nil)` without invoking any build. -/
theorem get_shared_error_stale_cache :
    (runBuild (Container.Get 0) (BuildFunc.ret Value.nil (some "boom")) NewContainer).map
        (fun rb => rb.outcome)
      = some (Outcome.returned Value.nil (some "boom")) ∧
    (((NewContainer.Add (Dependency.mk "x" true (BuildFunc.ret (Value.str "old") none))).Get
        1 "x").bind
      (fun r0 =>
        ((r0.c.Add (Dependency.mk "x" true (BuildFunc.ret Value.nil (some "boom")))).Get
          1 "x").map
        (fun r => (r.outcome, r.calls.length))))
      = some (Outcome.returned (Value.str "old") none, 0) ∧
    ((Container.mk
        (sync.Map.mk
          [("x", Dependency.mk "x" true
              (BuildFunc.get "y" (fun _ _ => BuildFunc.ret Value.nil (some "boom")))),
           ("y", Dependency.mk "x" true (BuildFunc.ret (Value.str "z") none))])
        NewContainer.Cache).Get 2 "x").map (fun r => r.outcome)
      = some (Outcome.returned Value.nil (some "boom")) ∧
    (((Container.mk
        (sync.Map.mk
          [("x", Dependency.mk "x" true
              (BuildFunc.get "y" (fun _ _ => BuildFunc.ret Value.nil (some "boom")))),
           ("y", Dependency.mk "x" true (BuildFunc.ret (Value.str "z") none))])
        NewContainer.Cache).Get 2 "x").bind
      (fun r1 => (r1.c.Get 2 "x").map (fun r => (r.outcome, r.calls.length))))
      = some (Outcome.returned (Value.str "z") none, 0) := by
  decide

theorem get_shared_caches (fuel : Nat) (c : Container) (d : Dependency) (v : Value)
    (r : Run) (hs : d.Shared = true) (hl : c.Dependencies.Load d.Name = some d)
    (hg : c.Get (fuel + 1) d.Name = some r) (hv : r.outcome = Outcome.returned v none) :
    r.c.Cache.Get d.Name = some v ∧
    (c.Cache.Get d.Name = none → ∃ inner, r.calls = [Call.build d.Name inner]) := by
  cases hc : c.Cache.Get d.Name with
  | some i =>
    rw [get_cached fuel c d.Name d i (fetch_of_load c d.Name d hl) hs hc] at hg
    simp only [Option.some.injEq] at hg
    rw [← hg] at hv
    simp only [Outcome.returned.injEq, and_true] at hv
    refine ⟨?_, fun h => by cases h⟩
    rw [← hg, ← hv]
    exact hc
  | none =>
    rw [get_build fuel c d.Name d (fetch_of_load c d.Name d hl) (Or.inr hc)] at hg
    cases hb : runBuild (Container.Get fuel) d.Build c with
    | none => simp [hb] at hg
    | some rb =>
      rw [hb] at hg
      cases ho : rb.outcome with
      | panicked m =>
        simp only [ho, Option.some.injEq] at hg
        rw [← hg] at hv
        cases hv
      | returned i err =>
        simp only [ho, Option.some.injEq] at hg
        rw [← hg] at hv
        simp only [Outcome.returned.injEq] at hv
        obtain ⟨hi, he⟩ := hv
        refine ⟨?_, fun _ => ⟨rb.calls, by rw [← hg]⟩⟩
        rw [← hg]
        simp [he, hs, hi, Cache.Set, Cache.Get, sync.Map.Load_Store_self]

/-- C20: `Add` leaves the cache as it is, and the cache is looked up by name alone.
Let the shared `d`, stored under its name, have been resolved by a `Get(d.Name)` that
returned `(v, nil)` (when the cache held nothing under that name before, `v` is what
that call had `d.Build` build).  After `Add(d1)` for a shared `d1` of the same name,
`Fetch(d.Name)` returns `d1`, yet every `Get(d.Name)` returns `(v, nil)` without
invoking any `Build` and leaves the container as it is. -/
theorem get_after_replace_returns_cached (fuel : Nat) (c : Container) (d d1 : Dependency)
    (v : Value) (r : Run)
    (hs : d.Shared = true) (hl : c.Dependencies.Load d.Name = some d)
    (hg : c.Get (fuel + 1) d.Name = some r) (hv : r.outcome = Outcome.returned v none)
    (hn : d1.Name = d.Name) (hs1 : d1.Shared = true) :
    (∀ (c0 : Container) (d0 : Dependency), (c0.Add d0).Cache = c0.Cache) ∧
    (c.Cache.Get d.Name = none → ∃ inner, r.calls = [Call.build d.Name inner]) ∧
    (r.c.Add d1).Cache.Get d.Name = some v ∧
    (r.c.Add d1).Fetch d.Name = Except.ok d1 ∧
    (∀ fuel2 : Nat,
      (r.c.Add d1).Get (fuel2 + 1) d.Name =
        some { outcome := Outcome.returned v none, c := r.c.Add d1, calls := [] }) := by
  have hcache := get_shared_caches fuel c d v r hs hl hg hv
  have hf : (r.c.Add d1).Fetch d.Name = Except.ok d1 := by
    rw [← hn]
    exact fetch_of_load _ _ _ (load_add r.c d1)
  refine ⟨fun _ _ => rfl, hcache.2, hcache.1, hf, ?_⟩
  intro fuel2
  exact get_cached fuel2 (r.c.Add d1) d.Name d1 v hf hs1 hcache.1

theorem get_after_replace_returns_cached_witness :
    (NewContainer.Add (Dependency.mk "x" true (BuildFunc.ret (Value.str "old") none))).Get
        1 "x"
      = some { outcome := Outcome.returned (Value.str "old") none
               c := { (NewContainer.Add
                        (Dependency.mk "x" true (BuildFunc.ret (Value.str "old") none))) with
                      Cache := NewContainer.Cache.Set "x" (Value.str "old") }
               calls := [Call.build "x" []] } ∧
    (({ (NewContainer.Add
          (Dependency.mk "x" true (BuildFunc.ret (Value.str "old") none))) with
        Cache := NewContainer.Cache.Set "x" (Value.str "old") } : Container).Add
        (Dependency.mk "x" true (BuildFunc.ret (Value.str "new") none))).Get 1 "x"
      = some { outcome := Outcome.returned (Value.str "old") none
               c := ({ (NewContainer.Add
                  (Dependency.mk "x" true (BuildFunc.ret (Value.str "old") none))) with
                  Cache := NewContainer.Cache.Set "x" (Value.str "old") } : Container).Add
                  (Dependency.mk "x" true (BuildFunc.ret (Value.str "new") none))
               calls := [] } :=
  ⟨rfl,
   (get_after_replace_returns_cached 0
      (NewContainer.Add (Dependency.mk "x" true (BuildFunc.ret (Value.str "old") none)))
      (Dependency.mk "x" true (BuildFunc.ret (Value.str "old") none))
      (Dependency.mk "x" true (BuildFunc.ret (Value.str "new") none))
      (Value.str "old")
      { outcome := Outcome.returned (Value.str "old") none
        c := { (NewContainer.Add
                 (Dependency.mk "x" true (BuildFunc.ret (Value.str "old") none))) with
               Cache := NewContainer.Cache.Set "x" (Value.str "old") }
        calls := [Call.build "x" []] }
      rfl rfl rfl rfl rfl rfl).2.2.2.2 0⟩

end di
